import Mathlib

/-!
# figma-mcp-bridge: leader election, role manager and connection bridge

A shallow embedding of the Go sources

* `server/bridge/websocket.go` and `server-golang-backup/bridge/protocol.go` (package `bridge`),
* `server/leader/leader.go` (package `leader`),
* `server/follower/follower.go` (package `follower`),
* `server/node/node.go` (package `node`),
* `server-golang-backup/election/election.go` (package `election`),

followed by theorems about them.

Conventions of the embedding.

* A Go `error` is its message; `Option Error` is a Go `error` value, `none` being `nil`.
* A pointer that may be `nil` is an `Option`.
* Mutexes are not modelled: every function below is the body of one critical section,
  or a sequence of them, run without interference.
* Everything outside the process (the TCP stack, the peer connection, the HTTP answer
  to a health check, the wall clock) is an explicit argument or an explicit piece of state,
  and every call that leaves the process is recorded in a trace.
-/

namespace FigmaBridge

/-- A Go `error`, identified with its message. -/
abbrev Error := String

/-- An `interface{}` payload, kept as an uninterpreted value. -/
abbrev Value := String

/-- A `map[string]interface{}` of parameters; the `nil` map is the empty list. -/
abbrev Params := List (String × Value)

/-- A `context.Context`: its identity and the error `ctx.Err()` reports once it is done. -/
structure Context where
  id : Nat
  err : Error
deriving DecidableEq, Repr

/-! ## The TCP stack -/

/-- What the operating system is asked to do on behalf of the election. -/
inductive NetEvent where
  | listen (addr : String)
  | shutdown (addr : String)
  | ping (url : String)
deriving DecidableEq, Repr

/-- The part of the machine shared by all processes: the addresses that currently have a
listener, and the calls made so far (newest first). -/
structure Net where
  bound : String → Bool
  trace : List NetEvent

namespace Net

/-- The message of the error `net.Listen` gives for an address already in use. -/
def inUse (addr : String) : Error :=
  "listen tcp " ++ addr ++ ": bind: address already in use"

/-- The call `net.Listen("tcp", addr)`: it succeeds exactly when no listener holds `addr`,
and then `addr` is held. The listener is identified with the address it is bound to. -/
def Listen (net : Net) (addr : String) : Except Error String × Net :=
  if net.bound addr then
    (Except.error (inUse addr), { net with trace := NetEvent.listen addr :: net.trace })
  else
    (Except.ok addr,
      { bound := fun a => if a = addr then true else net.bound a,
        trace := NetEvent.listen addr :: net.trace })

/-- Closing the listener on `addr` (the effect of `http.Server.Shutdown` on the listener the
server was given). -/
def Close (net : Net) (addr : String) : Net :=
  { bound := fun a => if a = addr then false else net.bound a,
    trace := NetEvent.shutdown addr :: net.trace }

/-- One HTTP GET to `url`, whose answer is supplied by the caller of the model. -/
def Get (net : Net) (url : String) : Net :=
  { net with trace := NetEvent.ping url :: net.trace }

end Net

/-! ## Package `bridge` -/

namespace bridge

/-- The Go struct `Request` of protocol.go (`Type_` is the field `Type`). -/
structure Request where
  Type_ : String
  RequestID : String
  NodeIDs : List String
  Params : Params
deriving DecidableEq, Repr

/-- The Go struct `Response` of protocol.go; `Data` is `nil` or a value. -/
structure Response where
  Type_ : String
  RequestID : String
  Data : Option Value
  Error : String
deriving DecidableEq, Repr

/-- The zero value `Response{}`. -/
def Response.zero : Response :=
  { Type_ := "", RequestID := "", Data := none, Error := "" }

/-- A `*websocket.Conn`, by identity. -/
abbrev Conn := Nat

/-- A `chan Response` made by `make(chan Response, 1)`, by identity. -/
abbrev Chan := Nat

/-- The Go struct `Bridge` of websocket.go, without its locks, upgrader, mux and server. -/
structure Bridge where
  addr : String
  conn : Option Conn
  pending : String → Option Chan
  counter : Nat

/-- The function `NewBridge`. -/
def NewBridge (addr : String) : Bridge :=
  { addr := addr, conn := none, pending := fun _ => none, counter := 0 }

/-- What the bridge does to a connection or a channel, as seen from outside the struct. -/
inductive WireEvent where
  | close (conn : Conn)
  | write (conn : Conn) (data : String)
  | await (ch : Chan)
deriving DecidableEq, Repr

/-- The state of the process outside the `Bridge` struct: the channels made so far are
`0 .. nextChan - 1`, `inbox ch` lists the responses sent on `ch` (oldest first), and `trace`
the events on connections and channels (newest first). -/
structure Runtime where
  nextChan : Nat
  inbox : Chan → List Response
  trace : List WireEvent

/-- The runtime of a process that has made no channel yet. -/
def Runtime.empty : Runtime :=
  { nextChan := 0, inbox := fun _ => [], trace := [] }

/-- An event added to the trace. -/
def Runtime.log (rt : Runtime) (ev : WireEvent) : Runtime :=
  { rt with trace := ev :: rt.trace }

/-- The statement `ch <- resp`. -/
def Runtime.send (rt : Runtime) (ch : Chan) (resp : Response) : Runtime :=
  { rt with inbox := fun c => if c = ch then rt.inbox c ++ [resp] else rt.inbox c }

/-- The wall clock read by `time.Now()`. -/
structure Clock where
  hour : Fin 24
  minute : Fin 60
  second : Fin 60
deriving DecidableEq, Repr

/-- Two decimal digits, as the layout elements `15`, `04` and `05` print them. -/
def twoDigits (n : Nat) : String :=
  if n < 10 then "0" ++ toString n else toString n

/-- The call `t.Format("150405")`. -/
def Clock.Format150405 (t : Clock) : String :=
  twoDigits t.hour ++ twoDigits t.minute ++ twoDigits t.second

/-- The function `fmtUint`, that is `strconv.FormatUint(value, 10)`. -/
def fmtUint (value : Nat) : String :=
  toString value

/-- The method `Bridge.getConn`. -/
def Bridge.getConn (b : Bridge) : Option Conn :=
  b.conn

/-- The method `Bridge.setConn`; `conn` is the connection the upgrade returned. -/
def Bridge.setConn (b : Bridge) (rt : Runtime) (conn : Conn) : Bridge × Runtime :=
  match b.conn with
  | some old => ({ b with conn := some conn }, rt.log (WireEvent.close old))
  | none => ({ b with conn := some conn }, rt)

/-- The method `Bridge.clearConn`. -/
def Bridge.clearConn (b : Bridge) (conn : Conn) : Bridge :=
  if b.conn = some conn then { b with conn := none } else b

/-- The method `Bridge.nextID`: the counter is a `uint64`, incremented atomically. -/
def Bridge.nextID (b : Bridge) (now : Clock) : String × Bridge :=
  let id := (b.counter + 1) % 2 ^ 64
  ("req-" ++ now.Format150405 ++ "-" ++ fmtUint id, { b with counter := id })

/-- Lines 147 to 150 of websocket.go: a new channel is made and stored under `requestID`. -/
def Bridge.register (b : Bridge) (rt : Runtime) (requestID : String) :
    Chan × Bridge × Runtime :=
  (rt.nextChan,
    { b with pending := fun k => if k = requestID then some rt.nextChan else b.pending k },
    { rt with nextChan := rt.nextChan + 1 })

/-- The statement `delete(b.pending, requestID)` in its critical section. -/
def Bridge.unregister (b : Bridge) (requestID : String) : Bridge :=
  { b with pending := fun k => if k = requestID then none else b.pending k }

/-- What `conn.ReadMessage()` followed by `json.Unmarshal` gives the reader: a read error, a
payload that is not a `Response`, or a `Response`. -/
inductive Frame where
  | readError
  | invalid
  | response (resp : Response)
deriving DecidableEq, Repr

/-- The body of the loop of `Bridge.readLoop` once `resp` is decoded: look the channel up,
delete the entry if there is one, and send `resp` on the channel. -/
def Bridge.deliver (b : Bridge) (rt : Runtime) (resp : Response) : Bridge × Runtime :=
  match b.pending resp.RequestID with
  | some ch => (b.unregister resp.RequestID, rt.send ch resp)
  | none => (b, rt)

/-- One turn of the loop of `Bridge.readLoop conn`; the Boolean tells whether the loop goes
on. -/
def Bridge.readLoopStep (b : Bridge) (rt : Runtime) (conn : Conn) :
    Frame → (Bridge × Runtime) × Bool
  | Frame.readError => ((b.clearConn conn, rt), false)
  | Frame.invalid => ((b, rt), true)
  | Frame.response resp => (b.deliver rt resp, true)

/-- How the `select` of `SendWithParams` ends: the reader has handled the response `resp` of the
peer to this request, which is then received from the reply channel, or the context is done
first. -/
inductive Select where
  | recv (resp : Response)
  | ctxDone
deriving DecidableEq, Repr

/-- What a call of `SendWithParams` meets outside the bridge: the clock, the JSON encoder, the
outcome of `conn.WriteMessage`, and the way its `select` ends. -/
structure SendEnv where
  now : Clock
  marshal : Request → Except Error String
  write : Conn → String → Option Error
  select : Select

/-- The method `Bridge.SendWithParams`. Its `select` can receive a response only after the
reader has handled it (`Bridge.deliver`: the entry of the request is deleted and the response
is sent on the reply channel), and the reader finds the reply channel only under the
request-ID of this call, which the response therefore carries. -/
def Bridge.SendWithParams (b : Bridge) (rt : Runtime) (env : SendEnv) (ctx : Context)
    (requestType : String) (nodeIDs : List String) (params : Params) :
    (Response × Option Error) × Bridge × Runtime :=
  match b.getConn with
  | none => ((Response.zero, some "plugin not connected"), b, rt)
  | some conn =>
    let (requestID, b1) := b.nextID env.now
    let req : Request :=
      { Type_ := requestType, RequestID := requestID, NodeIDs := nodeIDs, Params := params }
    match env.marshal req with
    | Except.error err => ((Response.zero, some err), b1, rt)
    | Except.ok data =>
      let (respCh, b2, rt2) := b1.register rt requestID
      let rt3 := rt2.log (WireEvent.write conn data)
      match env.write conn data with
      | some err => ((Response.zero, some err), b2.unregister requestID, rt3)
      | none =>
        let rt4 := rt3.log (WireEvent.await respCh)
        match env.select with
        | Select.recv resp =>
          let echoed : Response := { resp with RequestID := requestID }
          let (b3, rt5) := b2.deliver rt4 echoed
          if echoed.Error ≠ "" then ((echoed, some echoed.Error), b3, rt5)
          else ((echoed, none), b3, rt5)
        | Select.ctxDone => ((Response.zero, some ctx.err), b2.unregister requestID, rt4)

/-- The method `Bridge.Send`. -/
def Bridge.Send (b : Bridge) (rt : Runtime) (env : SendEnv) (ctx : Context)
    (requestType : String) (nodeIDs : List String) :
    (Response × Option Error) × Bridge × Runtime :=
  b.SendWithParams rt env ctx requestType nodeIDs []

/-- The method `Bridge.HandleWebSocket` after a successful upgrade to `conn`: the connection is
installed; its reader then runs as `Bridge.readLoopStep`. -/
def Bridge.HandleWebSocket (b : Bridge) (rt : Runtime) (conn : Conn) : Bridge × Runtime :=
  b.setConn rt conn

end bridge

/-! ## Package `follower` -/

namespace follower

/-- The Go struct `Follower`, without its HTTP client. -/
structure Follower where
  leaderURL : String
deriving DecidableEq, Repr

/-- The function `follower.New`. -/
def New (leaderURL : String) : Follower :=
  { leaderURL := leaderURL }

end follower

/-! ## Package `leader` -/

namespace leader

/-- The Go struct `Leader`. The listener is the address it is bound to; `server` tells whether
the `*http.Server` has been created. -/
structure Leader where
  addr : String
  bridge : Option bridge.Bridge
  listener : Option String
  server : Bool

/-- The function `leader.New`. -/
def New (addr : String) : Leader :=
  { addr := addr, bridge := none, listener := none, server := false }

/-- The method `Leader.Bridge`. -/
def Leader.Bridge (l : Leader) : Option bridge.Bridge :=
  l.bridge

/-- The method `Leader.Start`: bind first, and only then create bridge and server. -/
def Leader.Start (l : Leader) (net : Net) : Option Error × Leader × Net :=
  match net.Listen l.addr with
  | (Except.error err, net1) => (some err, l, net1)
  | (Except.ok listener, net1) =>
    (none,
      { l with listener := some listener, bridge := some (bridge.NewBridge l.addr),
               server := true },
      net1)

/-- The method `Leader.Stop`: shutting the server down closes the listener it serves. -/
def Leader.Stop (l : Leader) (net : Net) : Net :=
  if l.server then
    match l.listener with
    | some a => net.Close a
    | none => net
  else net

end leader

/-! ## Package `node` -/

namespace node

/-- The Go type `Role`, with its constants in `iota` order. -/
inductive Role where
  | RoleUnknown
  | RoleLeader
  | RoleFollower
deriving DecidableEq, Repr

open Role

/-- The integer value of a `Role`. -/
def Role.toInt : Role → Int
  | RoleUnknown => 0
  | RoleLeader => 1
  | RoleFollower => 2

/-- The Go struct `Node`, without its lock. -/
structure Node where
  role : Role
  leader : Option leader.Leader
  follower : follower.Follower
  addr : String

/-- The function `node.New`. -/
def New (addr : String) : Node :=
  { role := RoleUnknown, leader := none,
    follower := follower.New "http://localhost:1994", addr := addr }

/-- The method `Node.RoleInt`. -/
def Node.RoleInt (n : Node) : Int :=
  n.role.toInt

/-- The method `Node.SendWithParams`. The two callees are arguments: `bridgeSend` is
`(*bridge.Bridge).SendWithParams` applied to the pointer `l.Bridge()`, `followerSend` is
`(*follower.Follower).SendWithParams`. -/
def Node.SendWithParams {ρ : Type}
    (bridgeSend : Option bridge.Bridge → Context → String → List String → Params → ρ)
    (followerSend : follower.Follower → Context → String → List String → Params → ρ)
    (n : Node) (ctx : Context) (requestType : String) (nodeIDs : List String)
    (params : Params) : ρ :=
  match n.role, n.leader with
  | RoleLeader, some l => bridgeSend l.Bridge ctx requestType nodeIDs params
  | _, _ => followerSend n.follower ctx requestType nodeIDs params

/-- The method `Node.Send`. -/
def Node.Send {ρ : Type}
    (bridgeSend : Option bridge.Bridge → Context → String → List String → Params → ρ)
    (followerSend : follower.Follower → Context → String → List String → Params → ρ)
    (n : Node) (ctx : Context) (requestType : String) (nodeIDs : List String) : ρ :=
  n.SendWithParams bridgeSend followerSend ctx requestType nodeIDs []

/-- The method `Node.BecomeLeader`. -/
def Node.BecomeLeader (n : Node) (net : Net) : Option Error × Node × Net :=
  if n.role = RoleLeader then
    (none, n, net)
  else
    match (leader.New n.addr).Start net with
    | (some err, _, net1) => (some err, n, net1)
    | (none, l, net1) => (none, { n with leader := some l, role := RoleLeader }, net1)

/-- The method `Node.BecomeFollower`. -/
def Node.BecomeFollower (n : Node) (net : Net) : Node × Net :=
  if n.role = RoleFollower then
    (n, net)
  else
    match n.leader with
    | some l => ({ n with leader := none, role := RoleFollower }, l.Stop net)
    | none => ({ n with role := RoleFollower }, net)

/-- The method `Node.Stop`. -/
def Node.Stop (n : Node) (net : Net) : Node × Net :=
  match n.leader with
  | some l => ({ n with leader := none, role := RoleUnknown }, l.Stop net)
  | none => ({ n with role := RoleUnknown }, net)

end node

/-! ## Package `election` -/

namespace election

open node

/-- Constant `RoleUnknown` of election.go. -/
def RoleUnknown : Int := 0
/-- Constant `RoleLeader` of election.go. -/
def RoleLeader : Int := 1
/-- Constant `RoleFollower` of election.go. -/
def RoleFollower : Int := 2

/-- The Go struct `Election`, without ticker, stop channel and HTTP client. The node it drives
is passed to its methods. -/
structure Election where
  addr : String
  leaderURL : String
deriving DecidableEq, Repr

/-- The function `election.New`. -/
def New (addr : String) : Election :=
  { addr := addr, leaderURL := "http://localhost:1994" }

/-- The method `Election.pingLeader`. `alive` is the answer of the network: the request could
be built and sent, and the status was 200. -/
def Election.pingLeader (e : Election) (net : Net) (alive : Bool) : Bool × Net :=
  (alive, net.Get (e.leaderURL ++ "/ping"))

/-- The method `Election.determineRole`. -/
def Election.determineRole (e : Election) (n : Node) (net : Net) (alive : Bool) : Node × Net :=
  match n.BecomeLeader net with
  | (none, n1, net1) => (n1, net1)
  | (some _, n1, net1) =>
    match e.pingLeader net1 alive with
    | (true, net2) => n1.BecomeFollower net2
    | (false, net2) => (n1, net2)

/-- The method `Election.checkAndUpdateRole`. -/
def Election.checkAndUpdateRole (e : Election) (n : Node) (net : Net) (alive : Bool) :
    Node × Net :=
  let currentRole := n.RoleInt
  if currentRole = RoleFollower then
    match e.pingLeader net alive with
    | (false, net1) =>
      match n.BecomeLeader net1 with
      | (_, n1, net2) => (n1, net2)
    | (true, net1) => (n, net1)
  else if currentRole = RoleLeader then
    (n, net)
  else if currentRole = RoleUnknown then
    e.determineRole n net alive
  else
    (n, net)

end election

/-! ## The invariant of the role manager -/

namespace node

open Role

/-- The invariant of the role manager: the leader instance is non-nil exactly when the role
is `RoleLeader`. -/
def Node.Inv (n : Node) : Prop :=
  n.leader.isSome = true ↔ n.role = RoleLeader

instance (n : Node) : Decidable n.Inv := by
  unfold Node.Inv
  infer_instance

end node

/-! ## Several processes on one machine -/

namespace cluster

open node

/-- Any number of processes, indexed by `ι`, each with its node, on one machine. -/
structure Cluster (ι : Type) where
  nodes : ι → Node
  net : Net

/-- What can happen in a cluster: an operation of one node, or one tick of the election of one
node, `alive` being the answer its health check would get. -/
inductive Op (ι : Type) where
  | becomeLeader (i : ι)
  | becomeFollower (i : ι)
  | stop (i : ι)
  | tick (i : ι) (alive : Bool)
deriving Repr

variable {ι : Type} [DecidableEq ι]

/-- All nodes as `node.New addr` made them. -/
def Cluster.init (ι : Type) (addr : String) (net : Net) : Cluster ι :=
  { nodes := fun _ => node.New addr, net := net }

/-- Node `i` and the network replaced by the outcome of an operation of node `i`. -/
def Cluster.set (s : Cluster ι) (i : ι) (r : Node × Net) : Cluster ι :=
  { nodes := Function.update s.nodes i r.1, net := r.2 }

/-- One operation; the election of every node is the one `election.New addr` makes. -/
def Cluster.step (addr : String) (s : Cluster ι) : Op ι → Cluster ι
  | Op.becomeLeader i => s.set i ((s.nodes i).BecomeLeader s.net).2
  | Op.becomeFollower i => s.set i ((s.nodes i).BecomeFollower s.net)
  | Op.stop i => s.set i ((s.nodes i).Stop s.net)
  | Op.tick i alive => s.set i ((election.New addr).checkAndUpdateRole (s.nodes i) s.net alive)

/-- A sequence of operations, first to last. -/
def Cluster.run (addr : String) (s : Cluster ι) (ops : List (Op ι)) : Cluster ι :=
  ops.foldl (Cluster.step addr) s

/-- At most one node has the role `RoleLeader`. -/
def Cluster.AtMostOneLeader (s : Cluster ι) : Prop :=
  ∀ i j, (s.nodes i).role = Role.RoleLeader → (s.nodes j).role = Role.RoleLeader → i = j

/-- The invariant of a cluster on address `a`: every node is for `a` and satisfies the
invariant of the role manager, a leader means `a` has a listener, and there is at most one
leader. -/
def Cluster.Good (a : String) (s : Cluster ι) : Prop :=
  (∀ i, (s.nodes i).addr = a) ∧ (∀ i, (s.nodes i).Inv) ∧
    (∀ i, (s.nodes i).role = Role.RoleLeader → s.net.bound a = true) ∧ s.AtMostOneLeader

end cluster

/-! ## Two processes racing through `determineRole` -/

namespace race

open node

/-- Where a process is in its run of `determineRole`: before `BecomeLeader`, between a failed
`BecomeLeader` and `pingLeader`, or through. -/
inductive Pc where
  | start
  | probing
  | done
deriving DecidableEq, Repr

/-- Two processes, `false` and `true`, each somewhere in its run of `determineRole`. -/
structure Race where
  nodes : Bool → Node
  pc : Bool → Pc
  net : Net

/-- Both processes about to run `determineRole`. -/
def Race.init (n0 n1 : Node) (net : Net) : Race :=
  { nodes := fun i => if i then n1 else n0, pc := fun _ => Pc.start, net := net }

/-- The next step of process `i`: its call of `BecomeLeader`, or its call of `pingLeader`
followed, when the answer is alive, by `BecomeFollower`. The answer of the health check is
`probe` of the network at that moment. A process that is through does nothing. -/
def Race.step (e : Bool → election.Election) (probe : Net → Bool) (c : Race) (i : Bool) :
    Race :=
  match c.pc i with
  | Pc.start =>
    match (c.nodes i).BecomeLeader c.net with
    | (none, n1, net1) =>
      { nodes := Function.update c.nodes i n1, pc := Function.update c.pc i Pc.done,
        net := net1 }
    | (some _, n1, net1) =>
      { nodes := Function.update c.nodes i n1, pc := Function.update c.pc i Pc.probing,
        net := net1 }
  | Pc.probing =>
    match (e i).pingLeader c.net (probe c.net) with
    | (true, net2) =>
      { nodes := Function.update c.nodes i ((c.nodes i).BecomeFollower net2).1,
        pc := Function.update c.pc i Pc.done,
        net := ((c.nodes i).BecomeFollower net2).2 }
    | (false, net2) =>
      { nodes := c.nodes, pc := Function.update c.pc i Pc.done, net := net2 }
  | Pc.done => c

/-- An interleaving: the processes that take the successive steps. -/
def Race.run (e : Bool → election.Election) (probe : Net → Bool) (c : Race)
    (sched : List Bool) : Race :=
  sched.foldl (Race.step e probe) c

/-- The invariant of the race on address `a`: either nobody has tried yet and `a` is free, or
process `j` is leader and through while the other is still unknown with `a` held, or is a
follower and through. -/
def Race.Good (a : String) (c : Race) : Prop :=
  (∀ i, (c.nodes i).addr = a) ∧
  ((c.net.bound a = false ∧ ∀ i, c.pc i = Pc.start ∧ (c.nodes i).role = Role.RoleUnknown) ∨
   ∃ j, (c.nodes j).role = Role.RoleLeader ∧ c.pc j = Pc.done ∧
     ((c.pc (!j) ≠ Pc.done ∧ (c.nodes (!j)).role = Role.RoleUnknown ∧ c.net.bound a = true) ∨
      (c.pc (!j) = Pc.done ∧ (c.nodes (!j)).role = Role.RoleFollower)))

end race

/-! ## Sequences of operations on one bridge -/

namespace bridge

/-- What can happen to the pending-reply map: a sender stores a new channel under a request-ID,
the reader handles a decoded response, a sender deletes a request-ID. -/
inductive PendingOp where
  | register (requestID : String)
  | reader (resp : Response)
  | cancel (requestID : String)
deriving DecidableEq, Repr

/-- One operation on the pending-reply map. -/
def PendingOp.apply (s : Bridge × Runtime) : PendingOp → Bridge × Runtime
  | PendingOp.register requestID => (s.1.register s.2 requestID).2
  | PendingOp.reader resp => s.1.deliver s.2 resp
  | PendingOp.cancel requestID => (s.1.unregister requestID, s.2)

/-- A sequence of operations on the pending-reply map of a new bridge, first to last. -/
def runPending (addr : String) (ops : List PendingOp) : Bridge × Runtime :=
  ops.foldl PendingOp.apply (NewBridge addr, Runtime.empty)

/-- The invariant of the pending-reply map: a stored channel has been made and nothing has been
sent on it, no channel is stored under two request-IDs, nothing has been sent on a channel
not made yet, and at most one response has been sent on any channel. -/
def PendingInv (s : Bridge × Runtime) : Prop :=
  (∀ k ch, s.1.pending k = some ch → ch < s.2.nextChan ∧ s.2.inbox ch = []) ∧
  (∀ k1 k2 ch, s.1.pending k1 = some ch → s.1.pending k2 = some ch → k1 = k2) ∧
  (∀ ch, s.2.nextChan ≤ ch → s.2.inbox ch = []) ∧
  (∀ ch, (s.2.inbox ch).length ≤ 1)

/-- What can happen to the current connection: a new connection is accepted, or the reader of
a connection fails. -/
inductive ConnOp where
  | set (conn : Conn)
  | clear (conn : Conn)
deriving DecidableEq, Repr

/-- A bridge with its runtime and the record of the connections installed so far and of those
that were current when `clearConn` reset the current connection. -/
structure ConnState where
  bridge : Bridge
  rt : Runtime
  installed : List Conn
  cleared : List Conn

/-- A new bridge: nothing installed yet. -/
def ConnState.init (addr : String) : ConnState :=
  { bridge := NewBridge addr, rt := Runtime.empty, installed := [], cleared := [] }

/-- One operation on the current connection. -/
def ConnState.step (s : ConnState) : ConnOp → ConnState
  | ConnOp.set conn =>
    { bridge := (s.bridge.setConn s.rt conn).1, rt := (s.bridge.setConn s.rt conn).2,
      installed := conn :: s.installed, cleared := s.cleared }
  | ConnOp.clear conn =>
    { bridge := s.bridge.clearConn conn, rt := s.rt, installed := s.installed,
      cleared := if s.bridge.conn = some conn then conn :: s.cleared else s.cleared }

/-- A sequence of operations on the current connection of a new bridge, first to last. -/
def runConn (addr : String) (ops : List ConnOp) : ConnState :=
  ops.foldl ConnState.step (ConnState.init addr)

/-- Every connection installed so far is the current one, or has been closed, or was cleared
while current. -/
def ConnState.Settled (s : ConnState) : Prop :=
  ∀ c ∈ s.installed,
    s.bridge.conn = some c ∨ WireEvent.close c ∈ s.rt.trace ∨ c ∈ s.cleared

/-- The request-ID `id` is no key of the map of `b1`, and every other entry of `b1` is the
entry of `b0`; so the two maps are equal when `id` was no key of the map of `b0`. -/
def Bridge.OnlyRemoved (b0 b1 : Bridge) (id : String) : Prop :=
  b1.pending id = none ∧ (∀ k, k ≠ id → b1.pending k = b0.pending k) ∧
    (b0.pending id = none → b1.pending = b0.pending)

end bridge

/-! ## Request-IDs -/

namespace bridge

/-- The request-ID made from a clock reading and a counter value. -/
def requestIDOf (now : Clock) (id : Nat) : String :=
  "req-" ++ now.Format150405 ++ "-" ++ fmtUint id

/-- The request-IDs of successive calls of `nextID`, one call for each clock reading. -/
def Bridge.nextIDs (b : Bridge) : List Clock → List String
  | [] => []
  | now :: rest => (b.nextID now).1 :: (b.nextID now).2.nextIDs rest

/-- The number a decimal digit stands for. -/
def digitValue (c : Char) : Nat :=
  c.toNat - 48

/-- The number a decimal numeral stands for, its digits given last digit first. -/
def numeralValue : List Char → Nat
  | [] => 0
  | c :: cs => digitValue c + 10 * numeralValue cs

/-- What can happen to a bridge: a call of `SendWithParams`, a turn of the reader of a
connection, a new connection accepted. -/
inductive BridgeOp where
  | send (env : SendEnv) (ctx : Context) (requestType : String) (nodeIDs : List String)
      (params : Params)
  | frame (conn : Conn) (f : Frame)
  | accept (conn : Conn)

/-- A bridge with its runtime and the request-IDs registered so far, newest first. -/
structure BridgeRun where
  bridge : Bridge
  rt : Runtime
  registered : List String

/-- One operation. A call of `SendWithParams` has registered its request-ID exactly when it has
made a reply channel. -/
def BridgeRun.step (s : BridgeRun) : BridgeOp → BridgeRun
  | BridgeOp.send env ctx requestType nodeIDs params =>
    { bridge := (s.bridge.SendWithParams s.rt env ctx requestType nodeIDs params).2.1,
      rt := (s.bridge.SendWithParams s.rt env ctx requestType nodeIDs params).2.2,
      registered :=
        if s.rt.nextChan <
            (s.bridge.SendWithParams s.rt env ctx requestType nodeIDs params).2.2.nextChan
        then (s.bridge.nextID env.now).1 :: s.registered
        else s.registered }
  | BridgeOp.frame conn f =>
    { bridge := (s.bridge.readLoopStep s.rt conn f).1.1,
      rt := (s.bridge.readLoopStep s.rt conn f).1.2,
      registered := s.registered }
  | BridgeOp.accept conn =>
    { bridge := (s.bridge.HandleWebSocket s.rt conn).1,
      rt := (s.bridge.HandleWebSocket s.rt conn).2,
      registered := s.registered }

/-- A sequence of operations on a new bridge, first to last. -/
def runBridge (addr : String) (ops : List BridgeOp) : BridgeRun :=
  ops.foldl BridgeRun.step { bridge := NewBridge addr, rt := Runtime.empty, registered := [] }

/-- The invariant of a run short of `2 ^ 64` operations: the registered request-IDs are
pairwise different, and each was made from a counter value between 1 and the counter. -/
def BridgeRun.Fresh (s : BridgeRun) : Prop :=
  s.registered.Nodup ∧
    ∀ x ∈ s.registered, ∃ now k, 1 ≤ k ∧ k ≤ s.bridge.counter ∧ x = requestIDOf now k

/-- A run of a bridge: connection 1 is accepted, a request sent at 12:00:00 is answered with the
payload "{}", and a second request sent in the same second times out. -/
def sampleRun : List BridgeOp :=
  [BridgeOp.accept 1,
    BridgeOp.send
      ⟨Clock.mk 12 0 0, fun _ => Except.ok "frame", fun _ _ => none,
        Select.recv (Response.mk "get_node" "" (some "{}") "")⟩
      (Context.mk 0 "context canceled") "get_node" ["123:456"] [],
    BridgeOp.send
      ⟨Clock.mk 12 0 0, fun _ => Except.ok "frame", fun _ _ => none, Select.ctxDone⟩
      (Context.mk 0 "context canceled") "get_node" ["123:456"] []]

/-- Every key of the pending-reply map is a request-ID made from a counter value between 1 and
the counter. -/
def BridgeRun.Keyed (s : BridgeRun) : Prop :=
  ∀ key ch, s.bridge.pending key = some ch →
    ∃ now k, 1 ≤ k ∧ k ≤ s.bridge.counter ∧ key = requestIDOf now k

end bridge

/-! ## The forwarding protocol -/

/-- The body of a forwarding response on the wire: a JSON object whose members `data` (kept as
JSON text) and `error` may be absent. -/
structure ResponseJSON where
  data : Option String
  error : Option String
deriving DecidableEq, Repr

/-- The body of an HTTP response: plain text, or a JSON object of the forwarding protocol. -/
inductive HTTPBody where
  | text (s : String)
  | json (o : ResponseJSON)
deriving DecidableEq, Repr

/-- An HTTP response: status, content type and body. -/
structure HTTPResponse where
  StatusCode : Nat
  ContentType : String
  Body : HTTPBody
deriving DecidableEq, Repr

/-- An HTTP request with its context: method, URL, content type and body. -/
structure HTTPRequest where
  Method : String
  URL : String
  ContentType : String
  Body : String
  ctx : Context
deriving DecidableEq, Repr

namespace leader

/-- The Go struct `RPCRequest` of leader.go. -/
structure RPCRequest where
  Tool : String
  NodeIDs : List String
  Params : Params
deriving DecidableEq, Repr

/-- The Go struct `RPCResponse` of leader.go; `Data` is `nil` or a value. -/
structure RPCResponse where
  Data : Option Value
  Error : String
deriving DecidableEq, Repr

/-- What `handleRPC` uses of the libraries: the JSON decoder of the request body, the JSON text
of a payload, and the context `context.WithTimeout(r.Context(), 30*time.Second)` makes. -/
structure RPCEnv where
  decode : String → Except Error RPCRequest
  encode : Value → String
  withTimeout : Context → Context

/-- The JSON object `json.NewEncoder(w).Encode` writes for an `RPCResponse`: both fields are
tagged `omitempty`, so a `nil` payload and an empty error string are left out. -/
def RPCResponse.Encode (env : RPCEnv) (r : RPCResponse) : ResponseJSON :=
  { data := r.Data.map env.encode, error := if r.Error = "" then none else some r.Error }

/-- The method `Leader.handleRPC`; `send` is `l.bridge.SendWithParams`, giving what it
returns. The status is 200 unless `WriteHeader` is called. -/
def handleRPC (env : RPCEnv)
    (send : Context → String → List String → Params → bridge.Response × Option Error)
    (r : HTTPRequest) : HTTPResponse :=
  if r.Method ≠ "POST" then
    { StatusCode := 405, ContentType := "text/plain; charset=utf-8",
      Body := HTTPBody.text "Method not allowed\n" }
  else
    match env.decode r.Body with
    | Except.error _ =>
      { StatusCode := 400, ContentType := "application/json",
        Body := HTTPBody.json
          (RPCResponse.Encode env { Data := none, Error := "invalid request body" }) }
    | Except.ok req =>
      match send (env.withTimeout r.ctx) req.Tool req.NodeIDs req.Params with
      | (_, some err) =>
        { StatusCode := 200, ContentType := "application/json",
          Body := HTTPBody.json (RPCResponse.Encode env { Data := none, Error := err }) }
      | (resp, none) =>
        { StatusCode := 200, ContentType := "application/json",
          Body := HTTPBody.json (RPCResponse.Encode env { Data := resp.Data, Error := "" }) }

end leader

namespace follower

/-- The Go struct `RPCRequest` of follower.go. -/
structure RPCRequest where
  Tool : String
  NodeIDs : List String
  Params : Params
deriving DecidableEq, Repr

/-- The Go struct `RPCResponse` of follower.go; `Data` is a `json.RawMessage`, empty when the
member is absent. -/
structure RPCResponse where
  Data : String
  Error : String
deriving DecidableEq, Repr

/-- What `SendWithParams` uses of the libraries and of the network: the JSON encoder of the
request, the error (if any) of `http.NewRequestWithContext` for a URL, the HTTP exchange
`f.client.Do`, the error of the JSON decoder on a body that is no JSON object, and
`json.Unmarshal` of a raw payload into an `interface{}`. -/
structure Env where
  marshal : RPCRequest → Except Error String
  newRequest : String → Option Error
  roundTrip : HTTPRequest → Except Error HTTPResponse
  decodeErr : String → Error
  unmarshal : String → Except Error (Option Value)

/-- The call `json.NewDecoder(resp.Body).Decode(&rpcResp)`. -/
def RPCResponse.Decode (env : Env) : HTTPBody → Except FigmaBridge.Error RPCResponse
  | HTTPBody.json o => Except.ok { Data := o.data.getD "", Error := o.error.getD "" }
  | HTTPBody.text s => Except.error (env.decodeErr s)

/-- The method `Follower.SendWithParams`. -/
def Follower.SendWithParams (f : Follower) (env : Env) (ctx : Context) (requestType : String)
    (nodeIDs : List String) (params : Params) : bridge.Response × Option Error :=
  match env.marshal { Tool := requestType, NodeIDs := nodeIDs, Params := params } with
  | Except.error err => (bridge.Response.zero, some ("failed to marshal RPC request: " ++ err))
  | Except.ok body =>
    match env.newRequest (f.leaderURL ++ "/rpc") with
    | some err => (bridge.Response.zero, some ("failed to create request: " ++ err))
    | none =>
      match env.roundTrip
          { Method := "POST", URL := f.leaderURL ++ "/rpc", ContentType := "application/json",
            Body := body, ctx := ctx } with
      | Except.error err => (bridge.Response.zero, some ("failed to call leader: " ++ err))
      | Except.ok resp =>
        if resp.StatusCode ≠ 200 then
          (bridge.Response.zero,
            some ("leader returned status " ++ toString resp.StatusCode))
        else
          match RPCResponse.Decode env resp.Body with
          | Except.error err =>
            (bridge.Response.zero, some ("failed to decode response: " ++ err))
          | Except.ok rpcResp =>
            if rpcResp.Error ≠ "" then
              ({ bridge.Response.zero with Error := rpcResp.Error }, some rpcResp.Error)
            else if rpcResp.Data.length > 0 then
              match env.unmarshal rpcResp.Data with
              | Except.error err =>
                (bridge.Response.zero, some ("failed to unmarshal data: " ++ err))
              | Except.ok data =>
                ({ Type_ := requestType, RequestID := "", Data := data, Error := "" }, none)
            else
              ({ Type_ := requestType, RequestID := "", Data := none, Error := "" }, none)

/-- The method `Follower.Send`. -/
def Follower.Send (f : Follower) (env : Env) (ctx : Context) (requestType : String)
    (nodeIDs : List String) : bridge.Response × Option Error :=
  f.SendWithParams env ctx requestType nodeIDs []

end follower

/-! ## A worked forwarding exchange -/

namespace follower

/-- A leader whose decoder reads every body as `get_node` on node 123:456, whose payloads are
written as the letter j followed by the payload, and whose requests time out with the error of
a deadline. -/
def sampleLeaderEnv : leader.RPCEnv :=
  { decode := fun _ => Except.ok { Tool := "get_node", NodeIDs := ["123:456"], Params := [] },
    encode := fun d => String.mk ('j' :: d.data),
    withTimeout := fun c => { id := c.id + 1, err := "context deadline exceeded" } }

/-- A bridge call at 12:00:00 whose encoding and write succeed and whose `select` ends as
`sel`. -/
def sampleSendEnv (sel : bridge.Select) : bridge.SendEnv :=
  { now := bridge.Clock.mk 12 0 0, marshal := fun _ => Except.ok "frame",
    write := fun _ _ => none, select := sel }

/-- A follower whose requests reach `handleRPC` of the leader with bridge `b`, and which reads
payloads back by dropping the letter j. -/
def sampleEnv (b : bridge.Bridge) (sel : bridge.Select) : Env :=
  { marshal := fun _ => Except.ok "body",
    newRequest := fun _ => none,
    roundTrip := fun r =>
      Except.ok (leader.handleRPC sampleLeaderEnv
        (fun c t ids p => (b.SendWithParams bridge.Runtime.empty (sampleSendEnv sel) c t ids p).1)
        { Method := r.Method, URL := r.URL, ContentType := r.ContentType, Body := r.Body,
          ctx := Context.mk 7 "context canceled" }),
    decodeErr := fun _ => "invalid character",
    unmarshal := fun raw => Except.ok (some (String.mk raw.data.tail)) }

end follower

/-! ## Addresses and the URLs that designate them -/

/-- The address `main` passes to `node.New` and `election.New`. -/
def mainAddr : String := ":1994"

/-- The port of a listen address `host:port`: what follows its last colon. -/
def portOf (addr : String) : String :=
  String.mk (addr.data.reverse.takeWhile (fun c => c ≠ ':')).reverse

/-- The host of a listen address `host:port`: what precedes its last colon. -/
def hostOf (addr : String) : String :=
  String.mk ((addr.data.reverse.dropWhile (fun c => c ≠ ':')).drop 1).reverse

/-- The URL `url` designates the listen address `addr`: `addr` listens on every interface or on
localhost, and `url` is the HTTP URL of localhost with the port of `addr`. -/
def Designates (url addr : String) : Prop :=
  (hostOf addr = "" ∨ hostOf addr = "localhost") ∧ url = "http://localhost:" ++ portOf addr

instance (url addr : String) : Decidable (Designates url addr) := by
  unfold Designates
  infer_instance

/-! ## One election tick, as the specification words it -/


namespace election

open node

/-- An action of the election that leaves the process. -/
inductive Attempt where
  | acquire
  | probe
deriving DecidableEq, Repr

/-- The attempt a network event stands for; closing a listener is neither. -/
def attemptOf : NetEvent → Option Attempt
  | NetEvent.listen _ => some Attempt.acquire
  | NetEvent.ping _ => some Attempt.probe
  | NetEvent.shutdown _ => none

/-- The attempts recorded in a trace, newest first. -/
def attempts (t : List NetEvent) : List Attempt :=
  t.filterMap attemptOf

/-- One tick as the specification words it: the role afterwards and the attempts made, in the
order they are made, given the role before and what acquire and probe would answer. -/
def tickSpec (role : Role) (acquireOk probeAlive : Bool) : Role × List Attempt :=
  match role with
  | Role.RoleUnknown =>
    if acquireOk then (Role.RoleLeader, [Attempt.acquire])
    else if probeAlive then (Role.RoleFollower, [Attempt.acquire, Attempt.probe])
    else (Role.RoleUnknown, [Attempt.acquire, Attempt.probe])
  | Role.RoleFollower =>
    if probeAlive then (Role.RoleFollower, [Attempt.probe])
    else if acquireOk then (Role.RoleLeader, [Attempt.probe, Attempt.acquire])
    else (Role.RoleFollower, [Attempt.probe, Attempt.acquire])
  | Role.RoleLeader => (Role.RoleLeader, [])

end election

/-! ## Theorems: the role manager -/

namespace node

open Role

theorem BecomeLeader_of_leader (n : Node) (net : Net) (h : n.role = RoleLeader) :
    n.BecomeLeader net = (none, n, net) := by
  simp [Node.BecomeLeader, h]

theorem BecomeLeader_of_bound (n : Node) (net : Net) (h : n.role ≠ RoleLeader)
    (hb : net.bound n.addr = true) :
    n.BecomeLeader net =
      (some (Net.inUse n.addr), n, { net with trace := NetEvent.listen n.addr :: net.trace }) := by
  simp [Node.BecomeLeader, h, leader.Leader.Start, leader.New, Net.Listen, hb]

theorem BecomeLeader_of_free (n : Node) (net : Net) (h : n.role ≠ RoleLeader)
    (hb : net.bound n.addr = false) :
    n.BecomeLeader net =
      (none,
        { n with
          leader := some { addr := n.addr, bridge := some (bridge.NewBridge n.addr),
                           listener := some n.addr, server := true },
          role := RoleLeader },
        { bound := fun x => if x = n.addr then true else net.bound x,
          trace := NetEvent.listen n.addr :: net.trace }) := by
  simp [Node.BecomeLeader, h, leader.Leader.Start, leader.New, Net.Listen, hb]

theorem New_inv (addr : String) : (New addr).Inv := by
  simp [Node.Inv, New]

theorem BecomeLeader_inv (n : Node) (net : Net) (h : n.Inv) : (n.BecomeLeader net).2.1.Inv := by
  unfold Node.BecomeLeader
  by_cases hr : n.role = RoleLeader
  · simpa [hr] using h
  · simp only [hr, if_false, leader.Leader.Start, Net.Listen]
    by_cases hb : net.bound (leader.New n.addr).addr = true
    · simpa [hb] using h
    · simp [hb, Node.Inv]

theorem BecomeFollower_inv (n : Node) (net : Net) (h : n.Inv) :
    (n.BecomeFollower net).1.Inv := by
  unfold Node.BecomeFollower
  by_cases hr : n.role = RoleFollower
  · simpa [hr] using h
  · simp only [hr, if_false]
    cases hl : n.leader <;> simp [Node.Inv]

theorem Stop_inv (n : Node) (net : Net) : (n.Stop net).1.Inv := by
  unfold Node.Stop
  cases hl : n.leader <;> simp [Node.Inv]

/-- Claim C4. The predicate "the leader instance is non-nil iff the role is Leader" holds for
the node made by `node.New`, and every operation of the node keeps it: `BecomeLeader` for
every state of the network (so whether the address can be bound or not), `BecomeFollower`
and `Stop`. -/
theorem leader_instance_iff_role_leader (addr : String) (n : Node) (net : Net) (h : n.Inv) :
    (New addr).Inv ∧ (n.BecomeLeader net).2.1.Inv ∧ (n.BecomeFollower net).1.Inv ∧
      (n.Stop net).1.Inv :=
  ⟨New_inv addr, BecomeLeader_inv n net h, BecomeFollower_inv n net h, Stop_inv n net⟩

/-- Claim C5. `BecomeLeader` on a leader returns no error and changes neither the node nor the
network (no bind is attempted). On any other node it calls `Start` on a new leader for the
node's address: when `Start` fails with `err` the result is `err` with the node unchanged,
when it succeeds the result is no error with the started leader installed and the role
`RoleLeader`. In both cases exactly one bind is recorded. -/
theorem BecomeLeader_contract (n : Node) (net : Net) :
    (n.role = RoleLeader → n.BecomeLeader net = (none, n, net)) ∧
    (n.role ≠ RoleLeader →
      (n.BecomeLeader net).2.2.trace = NetEvent.listen n.addr :: net.trace ∧
      (∀ err l net1, (leader.New n.addr).Start net = (some err, l, net1) →
        n.BecomeLeader net = (some err, n, net1)) ∧
      (∀ l net1, (leader.New n.addr).Start net = (none, l, net1) →
        n.BecomeLeader net = (none, { n with leader := some l, role := RoleLeader }, net1))) := by
  refine ⟨fun h => by simp [Node.BecomeLeader, h], fun h => ⟨?_, ?_, ?_⟩⟩
  · simp only [Node.BecomeLeader, h, if_false, leader.Leader.Start, Net.Listen, leader.New]
    by_cases hb : net.bound n.addr = true <;> simp [hb]
  · intro err l net1 hs
    simp [Node.BecomeLeader, h, hs]
  · intro l net1 hs
    simp [Node.BecomeLeader, h, hs]

/-- Claim C6. `SendWithParams` calls the bridge of the installed leader when the role is
`RoleLeader` and a leader is installed, and the follower in every other case (in particular
whenever the role is `RoleFollower` or `RoleUnknown`); context, operation name, target IDs
and params are handed over as they came and the result of the call is the result. -/
theorem SendWithParams_dispatch {ρ : Type}
    (bridgeSend : Option bridge.Bridge → Context → String → List String → Params → ρ)
    (followerSend : follower.Follower → Context → String → List String → Params → ρ)
    (n : Node) (ctx : Context) (requestType : String) (nodeIDs : List String)
    (params : Params) :
    (∀ l, n.role = RoleLeader → n.leader = some l →
      n.SendWithParams bridgeSend followerSend ctx requestType nodeIDs params =
        bridgeSend l.Bridge ctx requestType nodeIDs params) ∧
    (n.role ≠ RoleLeader ∨ n.leader = none →
      n.SendWithParams bridgeSend followerSend ctx requestType nodeIDs params =
        followerSend n.follower ctx requestType nodeIDs params) := by
  constructor
  · intro l hr hl
    simp [Node.SendWithParams, hr, hl]
  · intro h
    unfold Node.SendWithParams
    rcases h with h | h
    · cases hr : n.role <;> cases hl : n.leader <;> simp_all
    · cases hr : n.role <;> simp [h]

/-- The node of a process that has bound ":1994" satisfies the invariant, and so does what each
operation makes of it. -/
theorem leader_instance_iff_role_leader_witness :
    ((New ":1994").BecomeLeader (Net.mk (fun _ => false) [])).2.1.Inv ∧
    ((New ":1994").Inv ∧
      ((((New ":1994").BecomeLeader (Net.mk (fun _ => false) [])).2.1).BecomeLeader
        (Net.mk (fun _ => true) [])).2.1.Inv ∧
      ((((New ":1994").BecomeLeader (Net.mk (fun _ => false) [])).2.1).BecomeFollower
        (Net.mk (fun _ => true) [])).1.Inv ∧
      ((((New ":1994").BecomeLeader (Net.mk (fun _ => false) [])).2.1).Stop
        (Net.mk (fun _ => true) [])).1.Inv) :=
  ⟨by decide,
   leader_instance_iff_role_leader ":1994"
     ((New ":1994").BecomeLeader (Net.mk (fun _ => false) [])).2.1
     (Net.mk (fun _ => true) []) (by decide)⟩

/-- On a new node for ":1994": with the address held the bind error comes back and the role
stays `RoleUnknown`, with the address free the role becomes `RoleLeader`. -/
theorem BecomeLeader_contract_witness :
    ((New ":1994").BecomeLeader (Net.mk (fun _ => true) [])).1
        = some "listen tcp :1994: bind: address already in use" ∧
    ((New ":1994").BecomeLeader (Net.mk (fun _ => true) [])).2.1.role = RoleUnknown ∧
    ((New ":1994").BecomeLeader (Net.mk (fun _ => false) [])).1 = none ∧
    ((New ":1994").BecomeLeader (Net.mk (fun _ => false) [])).2.1.role = RoleLeader ∧
    ((New ":1994").BecomeLeader (Net.mk (fun _ => false) [])).2.2.trace
        = [NetEvent.listen ":1994"] := by
  have hne : (New ":1994").role ≠ RoleLeader := by decide
  have h := (BecomeLeader_contract (New ":1994") (Net.mk (fun _ => true) [])).2 hne
  have hb := h.2.1 _ _ _ rfl
  have g := (BecomeLeader_contract (New ":1994") (Net.mk (fun _ => false) [])).2 hne
  have hf := g.2.2 _ _ rfl
  refine ⟨?_, ?_, ?_, ?_, ?_⟩
  · rw [hb]; rfl
  · rw [hb]; rfl
  · rw [hf]
  · rw [hf]
  · exact g.1

/-- A leader with its bridge installed sends through the bridge; a new node, whose role is
`RoleUnknown`, sends through the follower. -/
theorem SendWithParams_dispatch_witness :
    (((New ":1994").BecomeLeader (Net.mk (fun _ => false) [])).2.1.SendWithParams
        (fun _ _ t ids _ => ("bridge", t, ids)) (fun f _ t ids _ => (f.leaderURL, t, ids))
        (Context.mk 0 "context canceled") "get_node" ["123:456"] []
      = ("bridge", "get_node", ["123:456"])) ∧
    ((New ":1994").SendWithParams
        (fun _ _ t ids _ => ("bridge", t, ids)) (fun f _ t ids _ => (f.leaderURL, t, ids))
        (Context.mk 0 "context canceled") "get_node" ["123:456"] []
      = ("http://localhost:1994", "get_node", ["123:456"])) :=
  ⟨((SendWithParams_dispatch (fun _ _ t ids _ => ("bridge", t, ids))
      (fun f _ t ids _ => (f.leaderURL, t, ids))
      ((New ":1994").BecomeLeader (Net.mk (fun _ => false) [])).2.1
      (Context.mk 0 "context canceled") "get_node" ["123:456"] []).1 _ rfl rfl),
   ((SendWithParams_dispatch (fun _ _ t ids _ => ("bridge", t, ids))
      (fun f _ t ids _ => (f.leaderURL, t, ids)) (New ":1994")
      (Context.mk 0 "context canceled") "get_node" ["123:456"] []).2 (Or.inl (by decide)))⟩

end node

/-! ## Theorems: one election tick -/

namespace election

open node

/-- Claim C2. One tick of the election is the function `tickSpec` of the role and of the
outcomes of acquire and probe: the role after `checkAndUpdateRole` is the role `tickSpec`
gives, and the binds and health checks the tick adds to the trace are the attempts
`tickSpec` lists, in that order. The bind succeeds exactly when the address of the node has no
listener; `alive` is the answer of the health check. -/
theorem checkAndUpdateRole_refines_tickSpec (e : Election) (n : Node) (net : Net)
    (alive : Bool) :
    (e.checkAndUpdateRole n net alive).1.role = (tickSpec n.role (!net.bound n.addr) alive).1 ∧
    attempts (e.checkAndUpdateRole n net alive).2.trace =
      (tickSpec n.role (!net.bound n.addr) alive).2.reverse ++ attempts net.trace := by
  have hstop : ∀ (l : leader.Leader) (m : Net),
      List.filterMap attemptOf (l.Stop m).trace = List.filterMap attemptOf m.trace := by
    intro l m
    unfold leader.Leader.Stop
    cases l.server <;> cases l.listener <;> simp [Net.Close, attemptOf]
  cases hr : n.role <;> cases hb : net.bound n.addr <;> cases alive <;>
    cases hl : n.leader <;>
    simp [Election.checkAndUpdateRole, Election.determineRole, Election.pingLeader,
      Node.RoleInt, Role.toInt, RoleFollower, RoleLeader, RoleUnknown, tickSpec,
      Node.BecomeLeader, Node.BecomeFollower, leader.Leader.Start, leader.New, Net.Listen,
      Net.Get, attempts, attemptOf, hr, hb, hl, hstop]

end election

/-! ## Theorems: at most one leader -/

namespace cluster

open node

variable {ι : Type} [DecidableEq ι]

theorem set_nodes_self (s : Cluster ι) (i : ι) (r : Node × Net) : (s.set i r).nodes i = r.1 := by
  simp [Cluster.set]

theorem set_net (s : Cluster ι) (i : ι) (r : Node × Net) : (s.set i r).net = r.2 := rfl

theorem set_set (s : Cluster ι) (i : ι) (r1 r2 : Node × Net) :
    (s.set i r1).set i r2 = s.set i r2 := by
  simp [Cluster.set]

/-- The general step of the invariant: node `i` and the network may be replaced by `r` when `r.1`
is a node for `a` satisfying its invariant, it is a leader only if `a` is held afterwards and
either node `i` was leader or `a` was free, and a listener on `a` is only lost when node `i`
was leader. -/
theorem good_set {a : String} {s : Cluster ι} (hg : s.Good a) (i : ι) (r : Node × Net)
    (h1 : r.1.addr = a) (h2 : r.1.Inv)
    (h3 : r.1.role = Role.RoleLeader →
      r.2.bound a = true ∧ ((s.nodes i).role = Role.RoleLeader ∨ s.net.bound a = false))
    (h4 : (s.nodes i).role = Role.RoleLeader ∨ (s.net.bound a = true → r.2.bound a = true)) :
    (s.set i r).Good a := by
  obtain ⟨ha, hinv, hb, hone⟩ := hg
  have hother : ∀ j, j ≠ i → (s.nodes j).role = Role.RoleLeader →
      r.1.role = Role.RoleLeader → False := by
    intro j hji hj hr
    rcases (h3 hr).2 with hi | hf
    · exact hji (hone j i hj hi)
    · rw [hb j hj] at hf
      exact Bool.noConfusion hf
  refine ⟨?_, ?_, ?_, ?_⟩
  · intro j
    by_cases hji : j = i
    · subst hji; simpa [Cluster.set] using h1
    · simpa [Cluster.set, Function.update_noteq hji] using ha j
  · intro j
    by_cases hji : j = i
    · subst hji; simpa [Cluster.set] using h2
    · simpa [Cluster.set, Function.update_noteq hji] using hinv j
  · intro j hj
    by_cases hji : j = i
    · subst hji
      have hr : r.1.role = Role.RoleLeader := by simpa [Cluster.set] using hj
      exact (h3 hr).1
    · have hj1 : (s.nodes j).role = Role.RoleLeader := by
        simpa [Cluster.set, Function.update_noteq hji] using hj
      rcases h4 with hi | hk
      · exact absurd (hone j i hj1 hi) hji
      · exact hk (hb j hj1)
  · intro j k hj hk
    by_cases hji : j = i <;> by_cases hki : k = i
    · rw [hji, hki]
    · exfalso
      subst hji
      have hr : r.1.role = Role.RoleLeader := by simpa [Cluster.set] using hj
      have hk1 : (s.nodes k).role = Role.RoleLeader := by
        simpa [Cluster.set, Function.update_noteq hki] using hk
      exact hother k hki hk1 hr
    · exfalso
      subst hki
      have hr : r.1.role = Role.RoleLeader := by simpa [Cluster.set] using hk
      have hj1 : (s.nodes j).role = Role.RoleLeader := by
        simpa [Cluster.set, Function.update_noteq hji] using hj
      exact hother j hji hj1 hr
    · have hj1 : (s.nodes j).role = Role.RoleLeader := by
        simpa [Cluster.set, Function.update_noteq hji] using hj
      have hk1 : (s.nodes k).role = Role.RoleLeader := by
        simpa [Cluster.set, Function.update_noteq hki] using hk
      exact hone j k hj1 hk1

theorem set_same (s : Cluster ι) (i : ι) : s.set i (s.nodes i, s.net) = s := by
  cases s
  simp [Cluster.set]

theorem good_BecomeLeader {a : String} {s : Cluster ι} (hg : s.Good a) (i : ι) :
    (s.set i ((s.nodes i).BecomeLeader s.net).2).Good a := by
  have hai : (s.nodes i).addr = a := hg.1 i
  by_cases hr : (s.nodes i).role = Role.RoleLeader
  · rw [BecomeLeader_of_leader _ _ hr]
    simpa [set_same] using hg
  · cases hb : s.net.bound (s.nodes i).addr
    · rw [BecomeLeader_of_free _ _ hr hb]
      rw [hai] at hb
      refine good_set hg i _ hai ?_ ?_ ?_
      · simp [Node.Inv]
      · intro _
        exact ⟨by simp [hai], Or.inr hb⟩
      · exact Or.inr (fun _ => by simp [hai])
    · rw [BecomeLeader_of_bound _ _ hr hb]
      refine good_set hg i _ hai (hg.2.1 i) ?_ ?_
      · intro h
        exact absurd h hr
      · exact Or.inr (fun h => h)

theorem good_BecomeFollower {a : String} {s : Cluster ι} (hg : s.Good a) (i : ι) :
    (s.set i ((s.nodes i).BecomeFollower s.net)).Good a := by
  have hai : (s.nodes i).addr = a := hg.1 i
  have hinv : (s.nodes i).Inv := hg.2.1 i
  refine good_set hg i _ ?_ (BecomeFollower_inv _ _ hinv) ?_ ?_
  · unfold Node.BecomeFollower
    by_cases hr : (s.nodes i).role = Role.RoleFollower
    · simpa [hr] using hai
    · cases hl : (s.nodes i).leader <;> simpa [hr, hl] using hai
  · unfold Node.BecomeFollower
    by_cases hr : (s.nodes i).role = Role.RoleFollower
    · simp [hr]
    · cases hl : (s.nodes i).leader <;> simp [hr, hl]
  · unfold Node.BecomeFollower
    by_cases hr : (s.nodes i).role = Role.RoleFollower
    · simp [hr]
    · cases hl : (s.nodes i).leader
      · simp [hr, hl]
      · left
        exact hinv.1 (by simp [hl])

theorem good_Stop {a : String} {s : Cluster ι} (hg : s.Good a) (i : ι) :
    (s.set i ((s.nodes i).Stop s.net)).Good a := by
  have hai : (s.nodes i).addr = a := hg.1 i
  have hinv : (s.nodes i).Inv := hg.2.1 i
  refine good_set hg i _ ?_ (Stop_inv _ _) ?_ ?_
  · unfold Node.Stop
    cases hl : (s.nodes i).leader <;> simpa [hl] using hai
  · unfold Node.Stop
    cases hl : (s.nodes i).leader <;> simp [hl]
  · unfold Node.Stop
    cases hl : (s.nodes i).leader
    · simp [hl]
    · left
      exact hinv.1 (by simp [hl])

theorem good_Get {a : String} {s : Cluster ι} (hg : s.Good a) (i : ι) (url : String) :
    (s.set i (s.nodes i, s.net.Get url)).Good a := by
  refine good_set hg i _ (hg.1 i) (hg.2.1 i) ?_ ?_
  · intro h
    exact ⟨hg.2.2.1 i h, Or.inl h⟩
  · exact Or.inr (fun h => h)

theorem tick_eq (e : election.Election) (n : Node) (net : Net) (alive : Bool) :
    e.checkAndUpdateRole n net alive =
      match n.role with
      | Role.RoleLeader => (n, net)
      | Role.RoleFollower =>
        if alive then (n, net.Get (e.leaderURL ++ "/ping"))
        else (n.BecomeLeader (net.Get (e.leaderURL ++ "/ping"))).2
      | Role.RoleUnknown =>
        if (n.BecomeLeader net).1 = none then (n.BecomeLeader net).2
        else if alive then
          (n.BecomeLeader net).2.1.BecomeFollower
            ((n.BecomeLeader net).2.2.Get (e.leaderURL ++ "/ping"))
        else ((n.BecomeLeader net).2.1, (n.BecomeLeader net).2.2.Get (e.leaderURL ++ "/ping")) := by
  cases hr : n.role <;> cases alive <;>
    simp [election.Election.checkAndUpdateRole, election.Election.determineRole,
      election.Election.pingLeader, Node.RoleInt, Role.toInt, election.RoleFollower,
      election.RoleLeader, election.RoleUnknown, hr]
  all_goals
    rcases hbl : n.BecomeLeader net with ⟨err, n1, net1⟩
    cases err <;> simp

theorem good_tick {a : String} {s : Cluster ι} (hg : s.Good a) (e : election.Election) (i : ι)
    (alive : Bool) :
    (s.set i (e.checkAndUpdateRole (s.nodes i) s.net alive)).Good a := by
  rw [tick_eq]
  cases hr : (s.nodes i).role
  · -- unknown: determineRole
    simp only
    have g1 := good_BecomeLeader hg i
    split
    · exact g1
    · have g2 := good_Get g1 i (e.leaderURL ++ "/ping")
      rw [set_set, set_nodes_self, set_net] at g2
      split
      · have g3 := good_BecomeFollower g2 i
        rw [set_set, set_nodes_self, set_net] at g3
        exact g3
      · exact g2
  · -- leader
    simpa [set_same] using hg
  · -- follower
    simp only
    have g1 := good_Get hg i (e.leaderURL ++ "/ping")
    split
    · exact g1
    · have g2 := good_BecomeLeader g1 i
      rw [set_set, set_nodes_self, set_net] at g2
      exact g2

theorem good_step {a : String} {s : Cluster ι} (hg : s.Good a) (addr : String) (op : Op ι) :
    (s.step addr op).Good a := by
  cases op with
  | becomeLeader i => exact good_BecomeLeader hg i
  | becomeFollower i => exact good_BecomeFollower hg i
  | stop i => exact good_Stop hg i
  | tick i alive => exact good_tick hg _ i alive

theorem good_run {a : String} (addr : String) (ops : List (Op ι)) :
    ∀ s : Cluster ι, s.Good a → (s.run addr ops).Good a := by
  induction ops with
  | nil => intro s hg; exact hg
  | cons op ops ih =>
    intro s hg
    exact ih _ (good_step hg addr op)

theorem good_init (ι : Type) (a : String) (net : Net) : (Cluster.init ι a net).Good a := by
  refine ⟨fun _ => rfl, fun _ => New_inv a, ?_, ?_⟩
  · intro i h
    simp [Cluster.init, New] at h
  · intro i j h
    simp [Cluster.init, New] at h

/-- Claim C1. Any number of nodes share the address `a`; binding succeeds exactly when `a` has no
listener and stopping a leader closes its listener. From the state in which every node is as
`node.New a` made it (role `RoleUnknown`), whatever the network is (in particular with `a`
free), after any sequence of `BecomeLeader`, `BecomeFollower`, `Stop` and election ticks (with
any answers of the health checks) on any nodes, at most one node has the role `RoleLeader`. -/
theorem at_most_one_leader {ι : Type} [DecidableEq ι] (a : String) (net : Net)
    (ops : List (Op ι)) :
    ((Cluster.init ι a net).run a ops).AtMostOneLeader :=
  (good_run a ops _ (good_init ι a net)).2.2.2

/-- Three nodes on ":1994", free at the start: node 0 becomes leader, node 1 ticks and becomes a
follower, node 2 tries to become leader and fails; then node 0 stops and node 1 takes over on
its next tick. -/
theorem at_most_one_leader_witness :
    (Net.mk (fun _ => false) []).bound ":1994" = false ∧
    ((Cluster.init (Fin 3) ":1994" (Net.mk (fun _ => false) [])).run ":1994"
      [Op.becomeLeader 0, Op.tick 1 true, Op.becomeLeader 2, Op.stop 0,
        Op.tick 1 false]).AtMostOneLeader ∧
    (((Cluster.init (Fin 3) ":1994" (Net.mk (fun _ => false) [])).run ":1994"
      [Op.becomeLeader 0, Op.tick 1 true, Op.becomeLeader 2]).nodes 0).role
        = Role.RoleLeader ∧
    (((Cluster.init (Fin 3) ":1994" (Net.mk (fun _ => false) [])).run ":1994"
      [Op.becomeLeader 0, Op.tick 1 true, Op.becomeLeader 2, Op.stop 0,
        Op.tick 1 false]).nodes 1).role = Role.RoleLeader :=
  ⟨rfl, at_most_one_leader ":1994" _ _, by decide, by decide⟩

end cluster

/-! ## Theorems: the race of two processes -/

namespace race

open node

theorem race_good_init {a : String} (n0 n1 : Node) (net : Net)
    (h0 : n0.role = Role.RoleUnknown) (h1 : n1.role = Role.RoleUnknown)
    (ha0 : n0.addr = a) (ha1 : n1.addr = a) (hfree : net.bound a = false) :
    (Race.init n0 n1 net).Good a := by
  refine ⟨?_, Or.inl ⟨hfree, ?_⟩⟩
  · intro i
    cases i <;> simp [Race.init, ha0, ha1]
  · intro i
    cases i <;> simp [Race.init, h0, h1]

theorem race_good_step {a : String} (e : Bool → election.Election) (probe : Net → Bool)
    (hprobe : ∀ m : Net, m.bound a = true → probe m = true)
    {c : Race} (hg : c.Good a) (i : Bool) : (c.step e probe i).Good a := by
  obtain ⟨haddr, hphase⟩ := hg
  have hai := haddr i
  rcases hphase with ⟨hfree, hall⟩ | ⟨j, hjl, hjd, hrest⟩
  · -- nobody has tried yet: process `i` binds the address
    have hpc := (hall i).1
    have hr : (c.nodes i).role ≠ Role.RoleLeader := by rw [(hall i).2]; decide
    have hb : c.net.bound (c.nodes i).addr = false := by rw [hai]; exact hfree
    have hother := hall (!i)
    unfold Race.step
    rw [hpc]
    simp only [BecomeLeader_of_free _ _ hr hb]
    refine ⟨?_, Or.inr ⟨i, ?_, ?_, Or.inl ⟨?_, ?_, ?_⟩⟩⟩
    · intro k
      by_cases hk : k = i
      · subst hk; simpa using hai
      · simpa [Function.update_noteq hk] using haddr k
    · simp
    · simp
    · cases i <;> simp_all
    · cases i <;> simp_all
    · simp [hai]
  · by_cases hij : i = j
    · -- the leader is through
      subst hij
      have : c.step e probe i = c := by
        unfold Race.step
        rw [hjd]
      rw [this]
      exact ⟨haddr, Or.inr ⟨i, hjl, hjd, hrest⟩⟩
    · have hi : i = !j := by cases i <;> cases j <;> simp_all
      subst hi
      rcases hrest with ⟨hnd, hunk, hbound⟩ | ⟨hdone, hfol⟩
      · have hr : (c.nodes (!j)).role ≠ Role.RoleLeader := by rw [hunk]; decide
        have hb : c.net.bound (c.nodes (!j)).addr = true := by rw [hai]; exact hbound
        have hne : j ≠ !j := by cases j <;> decide
        cases hpc : c.pc (!j)
        · -- the bind of the other process fails
          unfold Race.step
          rw [hpc]
          simp only [BecomeLeader_of_bound _ _ hr hb]
          refine ⟨?_, Or.inr ⟨j, ?_, ?_, Or.inl ⟨?_, ?_, ?_⟩⟩⟩
          · intro k
            by_cases hk : k = !j
            · subst hk; simpa using hai
            · simpa [Function.update_noteq hk] using haddr k
          · simpa [Function.update_noteq hne] using hjl
          · simpa [Function.update_noteq hne] using hjd
          · simp
          · simpa using hunk
          · simpa using hbound
        · -- the health check of the other process is answered: it becomes follower
          have hp : probe c.net = true := hprobe _ hbound
          have hrf : (c.nodes (!j)).role ≠ Role.RoleFollower := by rw [hunk]; decide
          unfold Race.step
          rw [hpc]
          simp only [election.Election.pingLeader, hp]
          refine ⟨?_, Or.inr ⟨j, ?_, ?_, Or.inr ⟨?_, ?_⟩⟩⟩
          · intro k
            by_cases hk : k = !j
            · subst hk
              simp only [Function.update_same]
              unfold Node.BecomeFollower
              cases hl : (c.nodes (!j)).leader <;> simpa [hrf, hl] using hai
            · simpa [Function.update_noteq hk] using haddr k
          · simpa [Function.update_noteq hne] using hjl
          · simpa [Function.update_noteq hne] using hjd
          · simp
          · simp only [Function.update_same]
            unfold Node.BecomeFollower
            cases hl : (c.nodes (!j)).leader <;> simp [hrf, hl]
        · exact absurd hpc hnd
      · have : c.step e probe (!j) = c := by
          unfold Race.step
          rw [hdone]
        rw [this]
        exact ⟨haddr, Or.inr ⟨j, hjl, hjd, Or.inr ⟨hdone, hfol⟩⟩⟩

theorem race_good_run {a : String} (e : Bool → election.Election) (probe : Net → Bool)
    (hprobe : ∀ m : Net, m.bound a = true → probe m = true) (sched : List Bool) :
    ∀ c : Race, c.Good a → (c.run e probe sched).Good a := by
  induction sched with
  | nil => intro c hg; exact hg
  | cons i sched ih =>
    intro c hg
    exact ih _ (race_good_step e probe hprobe hg i)

/-- The steps of one process, taken without interruption, are `determineRole`: from `Pc.start`
two steps of process `i` leave its node and the network as `determineRole` does, the health
check being answered by `probe` of the network after the bind, and process `i` is through. -/
theorem two_steps_eq_determineRole (e : Bool → election.Election) (probe : Net → Bool)
    (c : Race) (i : Bool) (hpc : c.pc i = Pc.start) :
    (((c.step e probe i).step e probe i).nodes i, ((c.step e probe i).step e probe i).net) =
      (e i).determineRole (c.nodes i) c.net (probe ((c.nodes i).BecomeLeader c.net).2.2) ∧
    ((c.step e probe i).step e probe i).pc i = Pc.done := by
  unfold election.Election.determineRole
  rcases hbl : (c.nodes i).BecomeLeader c.net with ⟨err, n1, net1⟩
  cases err with
  | none => simp [Race.step, hpc, hbl]
  | some err =>
    cases hp : probe net1 <;>
      simp [Race.step, hpc, hbl, election.Election.pingLeader, hp]

/-- Claim C3. Two nodes for the same address `a` start in role `RoleUnknown` with `a` free, and
each runs `determineRole` once, its `BecomeLeader` and its `pingLeader` (with the
`BecomeFollower` that follows an alive answer) interleaved in any way with those of the other.
If the health check is answered alive whenever `a` has a listener, then once both are through
one node has the role `RoleLeader` and the other the role `RoleFollower`. -/
theorem race_one_leader_one_follower (e : Bool → election.Election) (probe : Net → Bool)
    (a : String) (n0 n1 : Node) (net : Net)
    (h0 : n0.role = Role.RoleUnknown) (h1 : n1.role = Role.RoleUnknown)
    (ha0 : n0.addr = a) (ha1 : n1.addr = a) (hfree : net.bound a = false)
    (hprobe : ∀ m : Net, m.bound a = true → probe m = true) (sched : List Bool)
    (hdone : ∀ i, ((Race.init n0 n1 net).run e probe sched).pc i = Pc.done) :
    ∃ j, (((Race.init n0 n1 net).run e probe sched).nodes j).role = Role.RoleLeader ∧
      (((Race.init n0 n1 net).run e probe sched).nodes (!j)).role = Role.RoleFollower := by
  obtain ⟨_, hphase⟩ :=
    race_good_run e probe hprobe sched _ (race_good_init n0 n1 net h0 h1 ha0 ha1 hfree)
  rcases hphase with ⟨_, hall⟩ | ⟨j, hjl, _, hrest⟩
  · have h := (hall true).1
    rw [hdone true] at h
    exact Pc.noConfusion h
  · rcases hrest with ⟨hnd, _, _⟩ | ⟨_, hfol⟩
    · exact absurd (hdone (!j)) hnd
    · exact ⟨j, hjl, hfol⟩

/-- Two new nodes on ":1994": process `true` binds first, process `false` fails to bind and then
probes; the health check answers alive exactly when the address has a listener. -/
theorem race_one_leader_one_follower_witness :
    (∀ i, ((Race.init (node.New ":1994") (node.New ":1994") (Net.mk (fun _ => false) [])).run
      (fun _ => election.New ":1994") (fun m => m.bound ":1994")
      [true, false, false]).pc i = Pc.done) ∧
    ∃ j, (((Race.init (node.New ":1994") (node.New ":1994") (Net.mk (fun _ => false) [])).run
      (fun _ => election.New ":1994") (fun m => m.bound ":1994")
      [true, false, false]).nodes j).role = Role.RoleLeader ∧
      (((Race.init (node.New ":1994") (node.New ":1994") (Net.mk (fun _ => false) [])).run
      (fun _ => election.New ":1994") (fun m => m.bound ":1994")
      [true, false, false]).nodes (!j)).role = Role.RoleFollower :=
  ⟨by decide,
   race_one_leader_one_follower (fun _ => election.New ":1994") (fun m => m.bound ":1994")
     ":1994" (node.New ":1994") (node.New ":1994") (Net.mk (fun _ => false) [])
     rfl rfl rfl rfl rfl (fun _ h => h) [true, false, false] (by decide)⟩

end race

/-! ## Theorems: the connection bridge -/

namespace bridge

/-- Claim C7. On a bridge that holds no connection, `SendWithParams` and `Send` return the zero
response and the error "plugin not connected", whatever the request and whatever would happen
outside; bridge and runtime are returned as they were, so the pending-reply map and the
counter are unchanged, nothing is written and no reply is awaited. -/
theorem SendWithParams_not_connected (b : Bridge) (rt : Runtime) (env : SendEnv)
    (ctx : Context) (requestType : String) (nodeIDs : List String) (params : Params)
    (h : b.conn = none) :
    b.SendWithParams rt env ctx requestType nodeIDs params
      = ((Response.zero, some "plugin not connected"), b, rt) ∧
    b.Send rt env ctx requestType nodeIDs
      = ((Response.zero, some "plugin not connected"), b, rt) := by
  simp [Bridge.Send, Bridge.SendWithParams, Bridge.getConn, h]

/-- A new bridge has no connection: sending on it fails at once. -/
theorem SendWithParams_not_connected_witness :
    (NewBridge ":1994").conn = none ∧
    ((NewBridge ":1994").SendWithParams Runtime.empty
        { now := Clock.mk 0 0 0, marshal := fun _ => Except.ok "", write := fun _ _ => none,
          select := Select.ctxDone }
        (Context.mk 0 "context canceled") "get_node" ["123:456"] []).1
      = (Response.zero, some "plugin not connected") :=
  ⟨rfl, congrArg Prod.fst (SendWithParams_not_connected (NewBridge ":1994") Runtime.empty
    { now := Clock.mk 0 0 0, marshal := fun _ => Except.ok "", write := fun _ _ => none,
      select := Select.ctxDone }
    (Context.mk 0 "context canceled") "get_node" ["123:456"] [] rfl).1⟩

theorem pendingInv_init (addr : String) : PendingInv (NewBridge addr, Runtime.empty) := by
  simp [PendingInv, NewBridge, Runtime.empty]

theorem pendingInv_register (s : Bridge × Runtime) (id : String) (h : PendingInv s) :
    PendingInv (s.1.register s.2 id).2 := by
  obtain ⟨h1, h2, h3, h4⟩ := h
  refine ⟨?_, ?_, ?_, ?_⟩
  · intro k ch hk
    simp only [Bridge.register] at hk ⊢
    by_cases hkid : k = id
    · simp only [hkid, if_true, Option.some.injEq] at hk
      subst hk
      exact ⟨Nat.lt_succ_self _, h3 _ (Nat.le_refl _)⟩
    · simp only [hkid, if_false] at hk
      exact ⟨Nat.lt_succ_of_lt (h1 k ch hk).1, (h1 k ch hk).2⟩
  · intro k1 k2 ch hk1 hk2
    simp only [Bridge.register] at hk1 hk2
    by_cases e1 : k1 = id <;> by_cases e2 : k2 = id
    · rw [e1, e2]
    · simp only [e1, if_true, Option.some.injEq] at hk1
      simp only [e2, if_false] at hk2
      have hlt := (h1 k2 ch hk2).1
      rw [← hk1] at hlt
      exact absurd hlt (Nat.lt_irrefl _)
    · simp only [e2, if_true, Option.some.injEq] at hk2
      simp only [e1, if_false] at hk1
      have hlt := (h1 k1 ch hk1).1
      rw [← hk2] at hlt
      exact absurd hlt (Nat.lt_irrefl _)
    · simp only [e1, if_false] at hk1
      simp only [e2, if_false] at hk2
      exact h2 k1 k2 ch hk1 hk2
  · intro ch hch
    simp only [Bridge.register] at hch ⊢
    exact h3 ch (by omega)
  · intro ch
    exact h4 ch

theorem pendingInv_unregister (s : Bridge × Runtime) (id : String) (h : PendingInv s) :
    PendingInv (s.1.unregister id, s.2) := by
  obtain ⟨h1, h2, h3, h4⟩ := h
  refine ⟨?_, ?_, h3, h4⟩
  · intro k ch hk
    simp only [Bridge.unregister] at hk
    by_cases hkid : k = id
    · simp [hkid] at hk
    · simp only [hkid, if_false] at hk
      exact h1 k ch hk
  · intro k1 k2 ch hk1 hk2
    simp only [Bridge.unregister] at hk1 hk2
    by_cases e1 : k1 = id
    · simp [e1] at hk1
    · by_cases e2 : k2 = id
      · simp [e2] at hk2
      · simp only [e1, if_false] at hk1
        simp only [e2, if_false] at hk2
        exact h2 k1 k2 ch hk1 hk2

theorem pendingInv_deliver (s : Bridge × Runtime) (resp : Response) (h : PendingInv s) :
    PendingInv (s.1.deliver s.2 resp) := by
  unfold Bridge.deliver
  cases hp : s.1.pending resp.RequestID with
  | none => exact h
  | some ch =>
    obtain ⟨h1, h2, h3, h4⟩ := h
    have hch := h1 _ _ hp
    refine ⟨?_, ?_, ?_, ?_⟩
    · intro k c hk
      simp only [Bridge.unregister] at hk
      by_cases hkid : k = resp.RequestID
      · simp [hkid] at hk
      · simp only [hkid, if_false] at hk
        have hne : c ≠ ch := by
          intro hc
          subst hc
          exact hkid (h2 _ _ _ hk hp)
        simpa [Runtime.send, hne] using h1 k c hk
    · intro k1 k2 c hk1 hk2
      simp only [Bridge.unregister] at hk1 hk2
      by_cases e1 : k1 = resp.RequestID
      · simp [e1] at hk1
      · by_cases e2 : k2 = resp.RequestID
        · simp [e2] at hk2
        · simp only [e1, if_false] at hk1
          simp only [e2, if_false] at hk2
          exact h2 k1 k2 c hk1 hk2
    · intro c hc
      have hne : c ≠ ch := by
        intro e
        have hlt := hch.1
        rw [← e] at hlt
        simp only [Runtime.send] at hc
        exact absurd (Nat.lt_of_lt_of_le hlt hc) (Nat.lt_irrefl _)
      simpa [Runtime.send, hne] using h3 c hc
    · intro c
      by_cases e : c = ch
      · subst e
        simp [Runtime.send, hch.2]
      · simpa [Runtime.send, e] using h4 c

theorem pendingInv_apply (s : Bridge × Runtime) (op : PendingOp) (h : PendingInv s) :
    PendingInv (op.apply s) := by
  cases op with
  | register id => exact pendingInv_register s id h
  | reader resp => exact pendingInv_deliver s resp h
  | cancel id => exact pendingInv_unregister s id h

theorem pendingInv_foldl (ops : List PendingOp) :
    ∀ s, PendingInv s → PendingInv (ops.foldl PendingOp.apply s) := by
  induction ops with
  | nil => intro s h; exact h
  | cons op ops ih =>
    intro s h
    exact ih _ (pendingInv_apply s op h)

/-- Claim C8. One turn of the reader on a decoded response `resp`. If `resp.RequestID` is a key of
the pending-reply map, with channel `ch`, the entry is deleted, every other entry stays,
`resp` is sent on `ch` and on no other channel. If it is no key, bridge and runtime are
unchanged. In both cases the reader goes on. And after any sequence of registrations, turns of
the reader and deletions on a new bridge, at most one response has been sent on each channel,
so its buffer of one element is never exceeded. -/
theorem reader_delivers_at_most_once (b : Bridge) (rt : Runtime) (resp : Response)
    (conn : Conn) (addr : String) (ops : List PendingOp) :
    (∀ ch, b.pending resp.RequestID = some ch →
      (b.deliver rt resp).1.pending resp.RequestID = none ∧
      (∀ k, k ≠ resp.RequestID → (b.deliver rt resp).1.pending k = b.pending k) ∧
      (b.deliver rt resp).2.inbox ch = rt.inbox ch ++ [resp] ∧
      (∀ c, c ≠ ch → (b.deliver rt resp).2.inbox c = rt.inbox c)) ∧
    (b.pending resp.RequestID = none → b.deliver rt resp = (b, rt)) ∧
    b.readLoopStep rt conn (Frame.response resp) = (b.deliver rt resp, true) ∧
    (∀ ch, ((runPending addr ops).2.inbox ch).length ≤ 1) := by
  refine ⟨?_, ?_, rfl, ?_⟩
  · intro ch hp
    simp only [Bridge.deliver, hp]
    refine ⟨by simp [Bridge.unregister], ?_, by simp [Runtime.send], ?_⟩
    · intro k hk
      simp [Bridge.unregister, hk]
    · intro c hc
      simp [Runtime.send, hc]
  · intro hp
    simp [Bridge.deliver, hp]
  · exact (pendingInv_foldl ops _ (pendingInv_init addr)).2.2.2

/-- Two requests are registered; the response to the first arrives twice and a response with an
unknown request-ID once: the first channel holds one response, the second none, and only the
second request is still pending. -/
theorem reader_delivers_at_most_once_witness :
    ((runPending ":1994"
        [PendingOp.register "req-120000-1", PendingOp.register "req-120000-2",
         PendingOp.reader (Response.mk "get_node" "req-120000-1" none ""),
         PendingOp.reader (Response.mk "get_node" "req-120000-1" none ""),
         PendingOp.reader (Response.mk "get_node" "req-120000-9" none "")]).2.inbox 0).length
      ≤ 1 ∧
    (runPending ":1994"
        [PendingOp.register "req-120000-1", PendingOp.register "req-120000-2",
         PendingOp.reader (Response.mk "get_node" "req-120000-1" none ""),
         PendingOp.reader (Response.mk "get_node" "req-120000-1" none ""),
         PendingOp.reader (Response.mk "get_node" "req-120000-9" none "")]).2.inbox 0
      = [Response.mk "get_node" "req-120000-1" none ""] ∧
    (runPending ":1994"
        [PendingOp.register "req-120000-1", PendingOp.register "req-120000-2",
         PendingOp.reader (Response.mk "get_node" "req-120000-1" none ""),
         PendingOp.reader (Response.mk "get_node" "req-120000-1" none ""),
         PendingOp.reader (Response.mk "get_node" "req-120000-9" none "")]).2.inbox 1 = [] ∧
    (runPending ":1994"
        [PendingOp.register "req-120000-1", PendingOp.register "req-120000-2",
         PendingOp.reader (Response.mk "get_node" "req-120000-1" none ""),
         PendingOp.reader (Response.mk "get_node" "req-120000-1" none ""),
         PendingOp.reader (Response.mk "get_node" "req-120000-9" none "")]).1.pending
        "req-120000-1" = none ∧
    (runPending ":1994"
        [PendingOp.register "req-120000-1", PendingOp.register "req-120000-2",
         PendingOp.reader (Response.mk "get_node" "req-120000-1" none ""),
         PendingOp.reader (Response.mk "get_node" "req-120000-1" none ""),
         PendingOp.reader (Response.mk "get_node" "req-120000-9" none "")]).1.pending
        "req-120000-2" = some 1 :=
  ⟨(reader_delivers_at_most_once (NewBridge ":1994") Runtime.empty
      (Response.mk "get_node" "req-120000-1" none "") 0 ":1994" _).2.2.2 0,
   by decide, by decide, by decide, by decide⟩

theorem onlyRemoved_register_unregister (b : Bridge) (rt : Runtime) (now : Clock)
    (id : String) :
    Bridge.OnlyRemoved b (((b.nextID now).2.register rt id).2.1.unregister id) id := by
  refine ⟨by simp [Bridge.unregister], ?_, ?_⟩
  · intro k hk
    simp [Bridge.unregister, Bridge.register, Bridge.nextID, hk]
  · intro hfree
    funext k
    by_cases hk : k = id
    · simp [Bridge.unregister, hk, hfree]
    · simp [Bridge.unregister, Bridge.register, Bridge.nextID, hk]

/-- On any bridge that holds connection `conn`, the request having been encoded as `data`: a
failed write returns its error, a context done before a reply returns the error of the context,
and in both cases the request-ID of the call is no key of the map afterwards, every other
entry is as before, and the map is the map before the call when that request-ID was no key of
it. -/
theorem SendWithParams_failure_removes_entry (b : Bridge) (rt : Runtime) (env : SendEnv)
    (ctx : Context) (requestType : String) (nodeIDs : List String) (params : Params)
    (conn : Conn) (data : String) (hconn : b.conn = some conn)
    (hdata : env.marshal
      { Type_ := requestType, RequestID := (b.nextID env.now).1, NodeIDs := nodeIDs,
        Params := params } = Except.ok data) :
    (∀ err, env.write conn data = some err →
      (b.SendWithParams rt env ctx requestType nodeIDs params).1 = (Response.zero, some err) ∧
      Bridge.OnlyRemoved b (b.SendWithParams rt env ctx requestType nodeIDs params).2.1
        (b.nextID env.now).1) ∧
    (env.write conn data = none → env.select = Select.ctxDone →
      (b.SendWithParams rt env ctx requestType nodeIDs params).1
        = (Response.zero, some ctx.err) ∧
      Bridge.OnlyRemoved b (b.SendWithParams rt env ctx requestType nodeIDs params).2.1
        (b.nextID env.now).1) := by
  constructor
  · intro err hw
    have hres : b.SendWithParams rt env ctx requestType nodeIDs params =
        ((Response.zero, some err),
          ((b.nextID env.now).2.register rt (b.nextID env.now).1).2.1.unregister
            (b.nextID env.now).1,
          ((b.nextID env.now).2.register rt (b.nextID env.now).1).2.2.log
            (WireEvent.write conn data)) := by
      simp only [Bridge.SendWithParams, Bridge.getConn, hconn, hdata, hw]
    rw [hres]
    exact ⟨rfl, onlyRemoved_register_unregister b rt env.now _⟩
  · intro hw hsel
    have hres : (b.SendWithParams rt env ctx requestType nodeIDs params).1 =
          (Response.zero, some ctx.err) ∧
        (b.SendWithParams rt env ctx requestType nodeIDs params).2.1 =
          ((b.nextID env.now).2.register rt (b.nextID env.now).1).2.1.unregister
            (b.nextID env.now).1 := by
      simp only [Bridge.SendWithParams, Bridge.getConn, hconn, hdata, hw, hsel, and_self]
    rw [hres.1, hres.2]
    exact ⟨rfl, onlyRemoved_register_unregister b rt env.now _⟩

theorem setConn_conn (b : Bridge) (rt : Runtime) (conn : Conn) :
    (b.setConn rt conn).1.conn = some conn := by
  unfold Bridge.setConn
  cases b.conn <;> rfl

theorem deliver_register (b : Bridge) (rt rt1 : Runtime) (id : String) (resp : Response) :
    (b.register rt id).2.1.deliver rt1 { resp with RequestID := id } =
      ((b.register rt id).2.1.unregister id,
        rt1.send rt.nextChan { resp with RequestID := id }) := by
  simp [Bridge.deliver, Bridge.register]

theorem writes_of_SendWithParams (b : Bridge) (rt : Runtime) (env : SendEnv) (ctx : Context)
    (requestType : String) (nodeIDs : List String) (params : Params) (conn : Conn)
    (hconn : b.conn = some conn) (c : Conn) (d : String)
    (h : WireEvent.write c d ∈
      (b.SendWithParams rt env ctx requestType nodeIDs params).2.2.trace) :
    WireEvent.write c d ∈ rt.trace ∨ c = conn := by
  revert h
  simp only [Bridge.SendWithParams, Bridge.getConn, hconn]
  cases env.marshal _ with
  | error err => intro h; exact Or.inl h
  | ok data =>
    simp only
    cases env.write conn data with
    | some err =>
      intro h
      simp only [Runtime.log, Bridge.register, List.mem_cons, WireEvent.write.injEq] at h
      rcases h with ⟨h, _⟩ | h
      · exact Or.inr h
      · exact Or.inl h
    | none =>
      simp only
      cases env.select with
      | recv resp =>
        simp only [deliver_register]
        by_cases hE : resp.Error = ""
        · intro h
          simp only [hE, ne_eq, not_true_eq_false, if_false, Runtime.log, Runtime.send,
            Bridge.register, List.mem_cons, WireEvent.write.injEq, reduceCtorEq, false_or] at h
          rcases h with ⟨h, _⟩ | h
          · exact Or.inr h
          · exact Or.inl h
        · intro h
          simp only [hE, ne_eq, not_false_eq_true, if_true, Runtime.log, Runtime.send,
            Bridge.register, List.mem_cons, WireEvent.write.injEq, reduceCtorEq, false_or] at h
          rcases h with ⟨h, _⟩ | h
          · exact Or.inr h
          · exact Or.inl h
      | ctxDone =>
        intro h
        simp only [Runtime.log, Bridge.register, List.mem_cons, WireEvent.write.injEq,
          reduceCtorEq, false_or] at h
        rcases h with ⟨h, _⟩ | h
        · exact Or.inr h
        · exact Or.inl h

theorem settled_init (addr : String) : (ConnState.init addr).Settled := by
  intro c hc
  simp [ConnState.init] at hc

theorem settled_step (s : ConnState) (op : ConnOp) (h : s.Settled) : (s.step op).Settled := by
  cases op with
  | set conn =>
    intro c hc
    simp only [ConnState.step, List.mem_cons] at hc ⊢
    rcases hc with hc | hc
    · left
      rw [hc]
      exact setConn_conn _ _ _
    · rcases h c hc with h1 | h1 | h1
      · right; left
        simp [Bridge.setConn, h1, Runtime.log]
      · right; left
        unfold Bridge.setConn
        cases s.bridge.conn <;> simp [Runtime.log, h1]
      · right; right
        exact h1
  | clear conn =>
    intro c hc
    simp only [ConnState.step] at hc ⊢
    rcases h c hc with h1 | h1 | h1
    · by_cases e : c = conn
      · right; right
        subst e
        simp [h1]
      · left
        have hne : ¬ s.bridge.conn = some conn := by
          rw [h1]
          intro h2
          exact e (Option.some.inj h2)
        simp [Bridge.clearConn, h1, e]
    · right; left
      exact h1
    · right; right
      split
      · exact List.mem_cons_of_mem _ h1
      · exact h1

theorem settled_foldl (ops : List ConnOp) :
    ∀ s : ConnState, s.Settled → (ops.foldl ConnState.step s).Settled := by
  induction ops with
  | nil => intro s h; exact h
  | cons op ops ih =>
    intro s h
    exact ih _ (settled_step s op h)

/-- Claim C10. On a bridge whose current connection is `A`, `setConn B` with `B` different from
`A` closes `A` and makes `B` current; a send on the bridge then reads `B` as its connection
and writes to no other; `clearConn A` afterwards changes nothing, and `clearConn C` resets the
current connection to none exactly when `C` is `B`. After any sequence of `setConn` and
`clearConn` on a new bridge every connection installed so far is the current one, or has
been closed, or was cleared while current (and the current connection is one at most). -/
theorem setConn_supersedes (b : Bridge) (rt : Runtime) (A B : Conn) (hA : b.conn = some A)
    (hAB : A ≠ B) (env : SendEnv) (ctx : Context) (requestType : String)
    (nodeIDs : List String) (params : Params) (addr : String) (ops : List ConnOp) :
    ((b.setConn rt B).1.conn = some B ∧
      (b.setConn rt B).2.trace = WireEvent.close A :: rt.trace) ∧
    ((b.setConn rt B).1.getConn = some B ∧
      ∀ c d, WireEvent.write c d ∈
          ((b.setConn rt B).1.SendWithParams (b.setConn rt B).2 env ctx requestType nodeIDs
            params).2.2.trace →
        WireEvent.write c d ∈ rt.trace ∨ c = B) ∧
    ((b.setConn rt B).1.clearConn A).conn = some B ∧
    (∀ C, ((b.setConn rt B).1.clearConn C).conn = none ↔ C = B) ∧
    ((runConn addr ops).Settled ∧
      ∀ C D, (runConn addr ops).bridge.conn = some C →
        (runConn addr ops).bridge.conn = some D → C = D) := by
  have hB := setConn_conn b rt B
  refine ⟨⟨hB, by simp [Bridge.setConn, hA, Runtime.log]⟩, ⟨hB, ?_⟩, ?_, ?_, ?_, ?_⟩
  · intro c d h
    rcases writes_of_SendWithParams _ _ env ctx requestType nodeIDs params B hB c d h with h1 | h1
    · left
      simpa [Bridge.setConn, hA, Runtime.log] using h1
    · exact Or.inr h1
  · have hne : ¬ (b.setConn rt B).1.conn = some A := by
      rw [hB]
      intro h
      exact hAB (Option.some.inj h).symm
    simp [Bridge.clearConn, hB, Ne.symm hAB]
  · intro C
    unfold Bridge.clearConn
    by_cases e : C = B
    · simp [hB, e]
    · have hne : ¬ (b.setConn rt B).1.conn = some C := by
        rw [hB]
        intro h
        exact e (Option.some.inj h).symm
      simp [hB, e, Ne.symm e]
  · exact settled_foldl ops _ (settled_init addr)
  · intro C D hC hD
    rw [hC] at hD
    exact Option.some.inj hD

/-- A bridge on connection 1 is given connection 2: connection 1 is closed, 2 is current and
stays so when the reader of 1 fails; the next send writes to 2. -/
theorem setConn_supersedes_witness :
    ((Bridge.mk ":1994" (some 1) (fun _ => none) 0).conn = some 1 ∧ (1 : Conn) ≠ 2) ∧
    ((Bridge.mk ":1994" (some 1) (fun _ => none) 0).setConn Runtime.empty 2).2.trace
      = [WireEvent.close 1] ∧
    ((((Bridge.mk ":1994" (some 1) (fun _ => none) 0).setConn Runtime.empty 2).1.clearConn
      1).conn = some 2) ∧
    ((((Bridge.mk ":1994" (some 1) (fun _ => none) 0).setConn Runtime.empty 2).1.SendWithParams
        ((Bridge.mk ":1994" (some 1) (fun _ => none) 0).setConn Runtime.empty 2).2
        { now := Clock.mk 12 0 0, marshal := fun _ => Except.ok "frame",
          write := fun _ _ => none, select := Select.ctxDone }
        (Context.mk 0 "context canceled") "get_node" ["123:456"] []).2.2.trace
      = [WireEvent.await 0, WireEvent.write 2 "frame", WireEvent.close 1]) ∧
    (runConn ":1994" [ConnOp.set 1, ConnOp.set 2, ConnOp.clear 1, ConnOp.clear 2]).Settled :=
  ⟨⟨rfl, by decide⟩,
   (setConn_supersedes (Bridge.mk ":1994" (some 1) (fun _ => none) 0) Runtime.empty 1 2 rfl
      (by decide)
      { now := Clock.mk 12 0 0, marshal := fun _ => Except.ok "frame",
        write := fun _ _ => none, select := Select.ctxDone }
      (Context.mk 0 "context canceled") "get_node" ["123:456"] [] ":1994"
      [ConnOp.set 1, ConnOp.set 2, ConnOp.clear 1, ConnOp.clear 2]).1.2,
   by decide, by decide,
   (setConn_supersedes (Bridge.mk ":1994" (some 1) (fun _ => none) 0) Runtime.empty 1 2 rfl
      (by decide)
      { now := Clock.mk 12 0 0, marshal := fun _ => Except.ok "frame",
        write := fun _ _ => none, select := Select.ctxDone }
      (Context.mk 0 "context canceled") "get_node" ["123:456"] [] ":1994"
      [ConnOp.set 1, ConnOp.set 2, ConnOp.clear 1, ConnOp.clear 2]).2.2.2.2.1⟩

end bridge

/-! ## Theorems: request-IDs are fresh -/

namespace bridge

theorem digitValue_digitChar (k : Nat) (h : k < 10) : digitValue (Nat.digitChar k) = k := by
  interval_cases k <;> decide

theorem toDigitsCore_spec (fuel : Nat) :
    ∀ n ds, n < fuel →
      ∃ pre, Nat.toDigitsCore 10 fuel n ds = pre ++ ds ∧ numeralValue pre.reverse = n := by
  induction fuel with
  | zero => intro n ds h; exact absurd h (Nat.not_lt_zero _)
  | succ fuel ih =>
    intro n ds h
    simp only [Nat.toDigitsCore]
    by_cases h0 : n / 10 = 0
    · simp only [h0, if_true]
      refine ⟨[Nat.digitChar (n % 10)], rfl, ?_⟩
      simp only [List.reverse_cons, List.reverse_nil, List.nil_append, numeralValue]
      rw [digitValue_digitChar _ (Nat.mod_lt _ (by decide))]
      omega
    · simp only [h0, if_false]
      obtain ⟨pre, hpre, hval⟩ := ih (n / 10) (Nat.digitChar (n % 10) :: ds) (by omega)
      refine ⟨pre ++ [Nat.digitChar (n % 10)], ?_, ?_⟩
      · rw [hpre]
        simp
      · simp only [List.reverse_append, List.reverse_cons, List.reverse_nil, List.nil_append,
          List.singleton_append, numeralValue, hval]
        rw [digitValue_digitChar _ (Nat.mod_lt _ (by decide))]
        omega

theorem numeralValue_toDigits (n : Nat) : numeralValue (Nat.toDigits 10 n).reverse = n := by
  obtain ⟨pre, hpre, hval⟩ := toDigitsCore_spec (n + 1) n [] (Nat.lt_succ_self n)
  unfold Nat.toDigits
  rw [hpre, List.append_nil]
  exact hval

theorem fmtUint_injective (m n : Nat) (h : fmtUint m = fmtUint n) : m = n := by
  have hd : Nat.toDigits 10 m = Nat.toDigits 10 n := by
    have := congrArg String.data h
    simpa [fmtUint, toString, Nat.repr, List.asString] using this
  rw [← numeralValue_toDigits m, ← numeralValue_toDigits n, hd]

theorem twoDigits_length (k : Nat) (h : k < 60) : (twoDigits k).length = 2 := by
  interval_cases k <;> rfl

theorem Format150405_length (now : Clock) : now.Format150405.length = 6 := by
  have h1 := twoDigits_length now.hour (by omega)
  have h2 := twoDigits_length now.minute now.minute.isLt
  have h3 := twoDigits_length now.second now.second.isLt
  simp only [Clock.Format150405, String.length_append, h1, h2, h3]

theorem requestIDOf_injective (now1 now2 : Clock) (id1 id2 : Nat)
    (h : requestIDOf now1 id1 = requestIDOf now2 id2) : id1 = id2 := by
  have hd := congrArg String.data h
  simp only [requestIDOf, String.data_append] at hd
  have hlen : ("req-".data ++ now1.Format150405.data ++ "-".data).length =
      ("req-".data ++ now2.Format150405.data ++ "-".data).length := by
    have l1 := Format150405_length now1
    have l2 := Format150405_length now2
    simp only [String.length] at l1 l2
    simp only [List.length_append, l1, l2]
  have hu := (List.append_inj hd hlen).2
  exact fmtUint_injective id1 id2 (String.ext hu)

theorem nextID_eq (b : Bridge) (now : Clock) :
    (b.nextID now).1 = requestIDOf now ((b.counter + 1) % 2 ^ 64) ∧
      (b.nextID now).2.counter = (b.counter + 1) % 2 ^ 64 ∧
      (b.nextID now).2.pending = b.pending ∧ (b.nextID now).2.conn = b.conn :=
  ⟨rfl, rfl, rfl, rfl⟩

theorem mem_nextIDs (clocks : List Clock) :
    ∀ (b : Bridge) (x : String), x ∈ b.nextIDs clocks →
      ∃ j now, j < clocks.length ∧ x = requestIDOf now ((b.counter + j + 1) % 2 ^ 64) := by
  induction clocks with
  | nil => intro b x hx; simp [Bridge.nextIDs] at hx
  | cons now rest ih =>
    intro b x hx
    simp only [Bridge.nextIDs, List.mem_cons] at hx
    rcases hx with hx | hx
    · exact ⟨0, now, by simp, by rw [hx]; rfl⟩
    · obtain ⟨j, now1, hj, hx1⟩ := ih _ x hx
      refine ⟨j + 1, now1, by simpa using hj, ?_⟩
      rw [hx1, (nextID_eq b now).2.1]
      congr 1
      omega

theorem nodup_nextIDs (clocks : List Clock) :
    ∀ b : Bridge, clocks.length < 2 ^ 64 → (b.nextIDs clocks).Nodup := by
  induction clocks with
  | nil => intro b _; simp [Bridge.nextIDs]
  | cons now rest ih =>
    intro b hlen
    simp only [List.length_cons] at hlen
    simp only [Bridge.nextIDs, List.nodup_cons]
    refine ⟨?_, ih _ (by omega)⟩
    intro hmem
    obtain ⟨j, now1, hj, hx⟩ := mem_nextIDs rest _ _ hmem
    rw [(nextID_eq b now).1, (nextID_eq b now).2.1] at hx
    have := requestIDOf_injective _ _ _ _ hx
    omega

theorem SendWithParams_counter (b : Bridge) (rt : Runtime) (env : SendEnv) (ctx : Context)
    (requestType : String) (nodeIDs : List String) (params : Params) :
    (b.SendWithParams rt env ctx requestType nodeIDs params).2.1.counter =
      if b.conn = none then b.counter else (b.counter + 1) % 2 ^ 64 := by
  cases hc : b.conn with
  | none => simp [Bridge.SendWithParams, Bridge.getConn, hc]
  | some conn =>
    simp only [Bridge.SendWithParams, Bridge.getConn, hc, reduceCtorEq, if_false]
    cases env.marshal _ with
    | error err => rfl
    | ok data =>
      simp only
      cases env.write conn data with
      | some err => rfl
      | none =>
        simp only
        cases env.select with
        | recv resp =>
          simp only [deliver_register]
          by_cases hE : resp.Error = "" <;>
            simp [hE, Bridge.register, Bridge.unregister, Bridge.nextID]
        | ctxDone => rfl

theorem SendWithParams_nextChan_of_none (b : Bridge) (rt : Runtime) (env : SendEnv)
    (ctx : Context) (requestType : String) (nodeIDs : List String) (params : Params)
    (hc : b.conn = none) :
    (b.SendWithParams rt env ctx requestType nodeIDs params).2.2.nextChan = rt.nextChan := by
  simp [Bridge.SendWithParams, Bridge.getConn, hc]

theorem readLoopStep_counter (b : Bridge) (rt : Runtime) (conn : Conn) (f : Frame) :
    (b.readLoopStep rt conn f).1.1.counter = b.counter := by
  cases f with
  | readError =>
    simp only [Bridge.readLoopStep, Bridge.clearConn]
    split <;> rfl
  | invalid => rfl
  | response resp =>
    simp only [Bridge.readLoopStep, Bridge.deliver]
    cases b.pending resp.RequestID <;> rfl

theorem HandleWebSocket_counter (b : Bridge) (rt : Runtime) (conn : Conn) :
    (b.HandleWebSocket rt conn).1.counter = b.counter := by
  simp only [Bridge.HandleWebSocket, Bridge.setConn]
  cases b.conn <;> rfl

theorem fresh_step (s : BridgeRun) (op : BridgeOp) (h : s.Fresh)
    (hlt : s.bridge.counter + 1 < 2 ^ 64) :
    (s.step op).Fresh ∧ (s.step op).bridge.counter ≤ s.bridge.counter + 1 := by
  obtain ⟨hnd, hform⟩ := h
  cases op with
  | send env ctx requestType nodeIDs params =>
    have hcount := SendWithParams_counter s.bridge s.rt env ctx requestType nodeIDs params
    cases hc : s.bridge.conn with
    | none =>
      have hch := SendWithParams_nextChan_of_none s.bridge s.rt env ctx requestType nodeIDs
        params hc
      simp only [hc, if_true] at hcount
      refine ⟨⟨?_, ?_⟩, ?_⟩
      · simpa [BridgeRun.step, hch] using hnd
      · intro x hx
        simp only [BridgeRun.step, hch, Nat.lt_irrefl, if_false] at hx ⊢
        rw [hcount]
        exact hform x hx
      · simp only [BridgeRun.step, hcount]
        omega
    | some conn =>
      simp only [hc, reduceCtorEq, if_false] at hcount
      have hmod : (s.bridge.counter + 1) % 2 ^ 64 = s.bridge.counter + 1 :=
        Nat.mod_eq_of_lt hlt
      rw [hmod] at hcount
      have hid : (s.bridge.nextID env.now).1 = requestIDOf env.now (s.bridge.counter + 1) := by
        rw [(nextID_eq s.bridge env.now).1, hmod]
      have hnew : (s.bridge.nextID env.now).1 ∉ s.registered := by
        intro hmem
        obtain ⟨now, k, _, hk, hx⟩ := hform _ hmem
        rw [hid] at hx
        have := requestIDOf_injective _ _ _ _ hx
        omega
      have hold : ∀ x ∈ s.registered,
          ∃ now k, 1 ≤ k ∧ k ≤ s.bridge.counter + 1 ∧ x = requestIDOf now k := by
        intro x hx
        obtain ⟨now, k, h1, hk, hx1⟩ := hform x hx
        exact ⟨now, k, h1, by omega, hx1⟩
      refine ⟨⟨?_, ?_⟩, ?_⟩
      · simp only [BridgeRun.step]
        split
        · exact List.nodup_cons.mpr ⟨hnew, hnd⟩
        · exact hnd
      · intro x hx
        simp only [BridgeRun.step, hcount] at hx ⊢
        split at hx
        · rcases List.mem_cons.mp hx with hx | hx
          · exact ⟨env.now, s.bridge.counter + 1, by omega, Nat.le_refl _, by rw [hx, hid]⟩
          · exact hold x hx
        · exact hold x hx
      · simp only [BridgeRun.step, hcount]
        exact Nat.le_refl _
  | frame conn f =>
    have hcount := readLoopStep_counter s.bridge s.rt conn f
    refine ⟨⟨hnd, ?_⟩, ?_⟩
    · intro x hx
      simp only [BridgeRun.step, hcount] at hx ⊢
      exact hform x hx
    · simp only [BridgeRun.step, hcount]
      omega
  | accept conn =>
    have hcount := HandleWebSocket_counter s.bridge s.rt conn
    refine ⟨⟨hnd, ?_⟩, ?_⟩
    · intro x hx
      simp only [BridgeRun.step, hcount] at hx ⊢
      exact hform x hx
    · simp only [BridgeRun.step, hcount]
      omega

theorem fresh_foldl (ops : List BridgeOp) :
    ∀ s : BridgeRun, s.Fresh → s.bridge.counter + ops.length < 2 ^ 64 →
      (ops.foldl BridgeRun.step s).Fresh := by
  induction ops with
  | nil => intro s h _; exact h
  | cons op ops ih =>
    intro s h hlt
    simp only [List.length_cons] at hlt
    have hs := fresh_step s op h (by omega)
    exact ih _ hs.1 (by have := hs.2; omega)

theorem twoDigits_digits (k : Nat) (h : k < 60) :
    (twoDigits k).data.all Char.isDigit = true := by
  interval_cases k <;> rfl

theorem Format150405_digits (now : Clock) :
    now.Format150405.data.all Char.isDigit = true := by
  have h1 := twoDigits_digits now.hour (by omega)
  have h2 := twoDigits_digits now.minute now.minute.isLt
  have h3 := twoDigits_digits now.second now.second.isLt
  simp only [Clock.Format150405, String.data_append, List.all_append, h1, h2, h3, Bool.and_self]

theorem getElem?_nextIDs (clocks : List Clock) :
    ∀ (b : Bridge) (j : Nat),
      (b.nextIDs clocks)[j]? =
        clocks[j]?.map (fun now => requestIDOf now ((b.counter + j + 1) % 2 ^ 64)) := by
  induction clocks with
  | nil => intro b j; simp [Bridge.nextIDs]
  | cons now rest ih =>
    intro b j
    cases j with
    | zero => simp [Bridge.nextIDs, nextID_eq]
    | succ j =>
      simp only [Bridge.nextIDs, List.getElem?_cons_succ, ih, (nextID_eq b now).2.1]
      congr 1
      funext now1
      congr 1
      omega

/-- Claim C12. `nextID` returns "req-", a stamp of six decimal digits made from the clock, "-" and
the decimal form of the counter after it was increased by one (as a `uint64`); on a new
bridge the first value is 1 and call number `j + 1` uses the value `j + 1`. For every bridge
and every list of fewer than `2 ^ 64` clock readings, equal or not, the request-IDs of the
successive calls are pairwise different. Hence in every run of fewer than `2 ^ 64` sends,
reader turns and accepted connections on a new bridge, the request-IDs registered in the
pending-reply map are pairwise different. -/
theorem nextID_fresh (b : Bridge) (now : Clock) (clocks : List Clock) (addr : String)
    (ops : List BridgeOp) (hcalls : clocks.length < 2 ^ 64) (hops : ops.length < 2 ^ 64) :
    ((b.nextID now).1 =
        "req-" ++ now.Format150405 ++ "-" ++ fmtUint ((b.counter + 1) % 2 ^ 64) ∧
      now.Format150405.length = 6 ∧ now.Format150405.data.all Char.isDigit = true ∧
      (b.nextID now).2.counter = (b.counter + 1) % 2 ^ 64) ∧
    (∀ j, ((NewBridge addr).nextIDs clocks)[j]? =
      clocks[j]?.map (fun t => "req-" ++ t.Format150405 ++ "-" ++ fmtUint (j + 1))) ∧
    (b.nextIDs clocks).Nodup ∧
    (runBridge addr ops).registered.Nodup := by
  refine ⟨⟨rfl, Format150405_length now, Format150405_digits now, rfl⟩, ?_,
    nodup_nextIDs clocks b hcalls, ?_⟩
  · intro j
    rw [getElem?_nextIDs]
    by_cases hj : j < clocks.length
    · have hmod : ((NewBridge addr).counter + j + 1) % 2 ^ 64 = j + 1 := by
        simp only [NewBridge, Nat.zero_add]
        exact Nat.mod_eq_of_lt (by omega)
      simp only [hmod, requestIDOf]
    · simp [List.getElem?_eq_none (Nat.le_of_not_lt hj)]
  · refine (fresh_foldl ops _ ⟨List.nodup_nil, ?_⟩ ?_).1
    · intro x hx
      simp at hx
    · simpa [NewBridge] using hops

/-- Three calls at the same second give three different request-IDs; so do three sends on one
connection at the same second. -/
theorem nextID_fresh_witness :
    ([Clock.mk 12 0 0, Clock.mk 12 0 0, Clock.mk 12 0 0].length < 2 ^ 64) ∧
    (NewBridge ":1994").nextIDs [Clock.mk 12 0 0, Clock.mk 12 0 0, Clock.mk 12 0 0]
      = ["req-120000-1", "req-120000-2", "req-120000-3"] ∧
    ((NewBridge ":1994").nextIDs [Clock.mk 12 0 0, Clock.mk 12 0 0, Clock.mk 12 0 0]).Nodup ∧
    (runBridge ":1994"
      [BridgeOp.accept 1,
       BridgeOp.send ⟨Clock.mk 12 0 0, fun _ => Except.ok "", fun _ _ => none, Select.ctxDone⟩
         (Context.mk 0 "context canceled") "get_node" ["123:456"] [],
       BridgeOp.send ⟨Clock.mk 12 0 0, fun _ => Except.ok "", fun _ _ => none, Select.ctxDone⟩
         (Context.mk 0 "context canceled") "get_node" ["123:456"] []]).registered
      = ["req-120000-2", "req-120000-1"] :=
  ⟨by decide, by decide,
   (nextID_fresh (NewBridge ":1994") (Clock.mk 12 0 0)
      [Clock.mk 12 0 0, Clock.mk 12 0 0, Clock.mk 12 0 0] ":1994" [] (by decide)
      (by decide)).2.2.1,
   by decide⟩

end bridge

/-! ## Theorems: forwarding is transparent -/

namespace bridge

theorem SendWithParams_error_ne_empty (b : Bridge) (rt : Runtime) (env : SendEnv)
    (ctx : Context) (requestType : String) (nodeIDs : List String) (params : Params)
    (hmarshal : ∀ req err, env.marshal req = Except.error err → err ≠ "")
    (hwrite : ∀ c d err, env.write c d = some err → err ≠ "")
    (hctx : ctx.err ≠ "") (m : Error)
    (h : (b.SendWithParams rt env ctx requestType nodeIDs params).1.2 = some m) : m ≠ "" := by
  revert h
  cases hc : b.conn with
  | none =>
    simp only [Bridge.SendWithParams, Bridge.getConn, hc, Option.some.injEq]
    intro h
    rw [← h]
    decide
  | some conn =>
    simp only [Bridge.SendWithParams, Bridge.getConn, hc]
    cases hm : env.marshal _ with
    | error err =>
      simp only [Option.some.injEq]
      intro h
      rw [← h]
      exact hmarshal _ _ hm
    | ok data =>
      simp only
      cases hw : env.write conn data with
      | some err =>
        simp only [Option.some.injEq]
        intro h
        rw [← h]
        exact hwrite _ _ _ hw
      | none =>
        simp only
        cases env.select with
        | recv resp =>
          by_cases hE : resp.Error = ""
          · simp [hE]
          · simp only [ne_eq, hE, not_false_eq_true, if_true, Option.some.injEq]
            intro h
            rw [← h]
            exact hE
        | ctxDone =>
          simp only [Option.some.injEq]
          intro h
          rw [← h]
          exact hctx

end bridge

namespace follower

theorem SendWithParams_of_response (f : Follower) (env : Env) (ctx : Context)
    (requestType : String) (nodeIDs : List String) (params : Params) (body : String)
    (resp : HTTPResponse)
    (hmarshal : env.marshal { Tool := requestType, NodeIDs := nodeIDs, Params := params }
      = Except.ok body)
    (hnew : env.newRequest (f.leaderURL ++ "/rpc") = none)
    (hdo : env.roundTrip
      { Method := "POST", URL := f.leaderURL ++ "/rpc", ContentType := "application/json",
        Body := body, ctx := ctx } = Except.ok resp) :
    f.SendWithParams env ctx requestType nodeIDs params =
      if resp.StatusCode ≠ 200 then
        (bridge.Response.zero, some ("leader returned status " ++ toString resp.StatusCode))
      else
        match RPCResponse.Decode env resp.Body with
        | Except.error err =>
          (bridge.Response.zero, some ("failed to decode response: " ++ err))
        | Except.ok rpcResp =>
          if rpcResp.Error ≠ "" then
            ({ bridge.Response.zero with Error := rpcResp.Error }, some rpcResp.Error)
          else if rpcResp.Data.length > 0 then
            match env.unmarshal rpcResp.Data with
            | Except.error err =>
              (bridge.Response.zero, some ("failed to unmarshal data: " ++ err))
            | Except.ok data =>
              ({ Type_ := requestType, RequestID := "", Data := data, Error := "" }, none)
          else
            ({ Type_ := requestType, RequestID := "", Data := none, Error := "" }, none) := by
  simp only [Follower.SendWithParams, hmarshal, hnew, hdo]

/-- Claim C11. A follower forwards a request whose body the leader decodes to the same
operation, target IDs and params, and gets back what `handleRPC` answers. Let the leader's
bridge call return `(resp, err)`, the libraries giving only errors with a message. If `err` is
an error with message `m`, `handleRPC` answers 200 with the JSON object whose only member is
`error: m`, and the follower returns a failure with message `m`. If `err` is `nil`,
`handleRPC` answers 200 with the payload of `resp` as `data` (left out when `nil`), and the
follower returns success with that payload as `Data`, a payload being read back from its JSON
text as it was. And whenever the status of the answer is not 200, the follower returns the
failure "leader returned status" with that status, whatever the body. -/
theorem forwarding_transparent (f : Follower) (fenv : Env) (lenv : leader.RPCEnv)
    (b : bridge.Bridge) (rt : bridge.Runtime) (benv : bridge.SendEnv) (ctx sctx : Context)
    (requestType : String) (nodeIDs : List String) (params : Params) (body : String)
    (hmarshal : fenv.marshal { Tool := requestType, NodeIDs := nodeIDs, Params := params }
      = Except.ok body)
    (hnew : fenv.newRequest (f.leaderURL ++ "/rpc") = none)
    (hdecode : lenv.decode body
      = Except.ok { Tool := requestType, NodeIDs := nodeIDs, Params := params })
    (hwire : fenv.roundTrip
        { Method := "POST", URL := f.leaderURL ++ "/rpc", ContentType := "application/json",
          Body := body, ctx := ctx }
      = Except.ok (leader.handleRPC lenv
          (fun c t ids p => (b.SendWithParams rt benv c t ids p).1)
          { Method := "POST", URL := f.leaderURL ++ "/rpc", ContentType := "application/json",
            Body := body, ctx := sctx }))
    (hcodec : ∀ d, 0 < (lenv.encode d).length ∧
      fenv.unmarshal (lenv.encode d) = Except.ok (some d))
    (hmarshalErr : ∀ req err, benv.marshal req = Except.error err → err ≠ "")
    (hwriteErr : ∀ c d err, benv.write c d = some err → err ≠ "")
    (hctxErr : (lenv.withTimeout sctx).err ≠ "") :
    (∀ m, (b.SendWithParams rt benv (lenv.withTimeout sctx) requestType nodeIDs params).1.2
        = some m →
      leader.handleRPC lenv (fun c t ids p => (b.SendWithParams rt benv c t ids p).1)
          { Method := "POST", URL := f.leaderURL ++ "/rpc", ContentType := "application/json",
            Body := body, ctx := sctx }
        = { StatusCode := 200, ContentType := "application/json",
            Body := HTTPBody.json { data := none, error := some m } } ∧
      f.SendWithParams fenv ctx requestType nodeIDs params
        = ({ bridge.Response.zero with Error := m }, some m)) ∧
    ((b.SendWithParams rt benv (lenv.withTimeout sctx) requestType nodeIDs params).1.2 = none →
      leader.handleRPC lenv (fun c t ids p => (b.SendWithParams rt benv c t ids p).1)
          { Method := "POST", URL := f.leaderURL ++ "/rpc", ContentType := "application/json",
            Body := body, ctx := sctx }
        = { StatusCode := 200, ContentType := "application/json",
            Body := HTTPBody.json
              { data := (b.SendWithParams rt benv (lenv.withTimeout sctx) requestType nodeIDs
                  params).1.1.Data.map lenv.encode,
                error := none } } ∧
      f.SendWithParams fenv ctx requestType nodeIDs params
        = ({ Type_ := requestType, RequestID := "",
             Data := (b.SendWithParams rt benv (lenv.withTimeout sctx) requestType nodeIDs
               params).1.1.Data,
             Error := "" }, none)) ∧
    (∀ (env2 : Env) (body2 : String) (resp2 : HTTPResponse),
      env2.marshal { Tool := requestType, NodeIDs := nodeIDs, Params := params }
        = Except.ok body2 →
      env2.newRequest (f.leaderURL ++ "/rpc") = none →
      env2.roundTrip
          { Method := "POST", URL := f.leaderURL ++ "/rpc", ContentType := "application/json",
            Body := body2, ctx := ctx } = Except.ok resp2 →
      resp2.StatusCode ≠ 200 →
      f.SendWithParams env2 ctx requestType nodeIDs params
        = (bridge.Response.zero,
            some ("leader returned status " ++ toString resp2.StatusCode))) := by
  have hfol := SendWithParams_of_response f fenv ctx requestType nodeIDs params body _
    hmarshal hnew hwire
  refine ⟨?_, ?_, ?_⟩
  · intro m hm
    have hne : m ≠ "" :=
      bridge.SendWithParams_error_ne_empty b rt benv _ requestType nodeIDs params
        hmarshalErr hwriteErr hctxErr m hm
    have hrpc : leader.handleRPC lenv (fun c t ids p => (b.SendWithParams rt benv c t ids p).1)
          { Method := "POST", URL := f.leaderURL ++ "/rpc", ContentType := "application/json",
            Body := body, ctx := sctx }
        = { StatusCode := 200, ContentType := "application/json",
            Body := HTTPBody.json { data := none, error := some m } } := by
      rcases hout : (b.SendWithParams rt benv (lenv.withTimeout sctx) requestType nodeIDs
        params).1 with ⟨resp, err⟩
      rw [hout] at hm
      simp only at hm
      subst hm
      simp [leader.handleRPC, hdecode, hout, leader.RPCResponse.Encode, hne]
    refine ⟨hrpc, ?_⟩
    rw [hfol, hrpc]
    simp [RPCResponse.Decode, hne]
  · intro hnone
    rcases hout : (b.SendWithParams rt benv (lenv.withTimeout sctx) requestType nodeIDs
      params).1 with ⟨resp, err⟩
    rw [hout] at hnone
    simp only at hnone
    subst hnone
    have hrpc : leader.handleRPC lenv (fun c t ids p => (b.SendWithParams rt benv c t ids p).1)
          { Method := "POST", URL := f.leaderURL ++ "/rpc", ContentType := "application/json",
            Body := body, ctx := sctx }
        = { StatusCode := 200, ContentType := "application/json",
            Body := HTTPBody.json { data := resp.Data.map lenv.encode, error := none } } := by
      simp [leader.handleRPC, hdecode, hout, leader.RPCResponse.Encode]
    refine ⟨hrpc, ?_⟩
    rw [hfol, hrpc]
    cases hd : resp.Data with
    | none => simp [RPCResponse.Decode]
    | some d =>
      have h1 := (hcodec d).1
      have h2 := (hcodec d).2
      simp [RPCResponse.Decode, h1, h2]
  · intro env2 body2 resp2 hm2 hn2 hd2 hstatus
    rw [SendWithParams_of_response f env2 ctx requestType nodeIDs params body2 resp2 hm2 hn2
      hd2]
    simp [hstatus]

theorem sample_codec (b : bridge.Bridge) (sel : bridge.Select) (d : Value) :
    0 < (sampleLeaderEnv.encode d).length ∧
      (sampleEnv b sel).unmarshal (sampleLeaderEnv.encode d) = Except.ok (some d) :=
  ⟨Nat.succ_pos _, rfl⟩

/-- With no plugin connected to the leader the follower returns "plugin not connected"; with a
plugin that answers with the payload "{}" the follower returns that payload. -/
theorem forwarding_transparent_witness :
    ((follower.New "http://localhost:1994").SendWithParams
        (sampleEnv (bridge.NewBridge ":1994") bridge.Select.ctxDone)
        (Context.mk 0 "context canceled") "get_node" ["123:456"] []
      = ({ bridge.Response.zero with Error := "plugin not connected" },
          some "plugin not connected")) ∧
    ((follower.New "http://localhost:1994").SendWithParams
        (sampleEnv (bridge.Bridge.mk ":1994" (some 1) (fun _ => none) 0)
          (bridge.Select.recv (bridge.Response.mk "get_node" "req-120000-1" (some "{}") "")))
        (Context.mk 0 "context canceled") "get_node" ["123:456"] []
      = (bridge.Response.mk "get_node" "" (some "{}") "", none)) :=
  ⟨((forwarding_transparent (follower.New "http://localhost:1994")
      (sampleEnv (bridge.NewBridge ":1994") bridge.Select.ctxDone) sampleLeaderEnv
      (bridge.NewBridge ":1994") bridge.Runtime.empty (sampleSendEnv bridge.Select.ctxDone)
      (Context.mk 0 "context canceled") (Context.mk 7 "context canceled")
      "get_node" ["123:456"] [] "body" rfl rfl rfl rfl
      (sample_codec _ _)
      (fun _ _ h => Except.noConfusion h)
      (fun _ _ _ h => Option.noConfusion h)
      (by decide)).1 "plugin not connected" rfl).2,
   ((forwarding_transparent (follower.New "http://localhost:1994")
      (sampleEnv (bridge.Bridge.mk ":1994" (some 1) (fun _ => none) 0)
        (bridge.Select.recv (bridge.Response.mk "get_node" "req-120000-1" (some "{}") "")))
      sampleLeaderEnv
      (bridge.Bridge.mk ":1994" (some 1) (fun _ => none) 0) bridge.Runtime.empty
      (sampleSendEnv
        (bridge.Select.recv (bridge.Response.mk "get_node" "req-120000-1" (some "{}") "")))
      (Context.mk 0 "context canceled") (Context.mk 7 "context canceled")
      "get_node" ["123:456"] [] "body" rfl rfl rfl rfl
      (sample_codec _ _)
      (fun _ _ h => Except.noConfusion h)
      (fun _ _ _ h => Option.noConfusion h)
      (by decide)).2.1 rfl).2⟩

end follower

/-! ## Theorems: the passive side and the shared address -/

namespace node

theorem designates_port (url addr : String) (h : Designates url addr) :
    url = "http://localhost:" ++ portOf addr := h.2

theorem localhost_url_port (x y : String)
    (h : "http://localhost:" ++ x = "http://localhost:" ++ y) : x = y := by
  have hd := congrArg String.data h
  simp only [String.data_append] at hd
  exact String.ext (List.append_cancel_left hd)

/-- A node and an election for ":8080": `BecomeLeader` binds ":8080", while the follower of the
node forwards to, and the election probes, http://localhost:1994, which does not designate
":8080". -/
theorem passive_side_ignores_addr :
    ((New ":8080").BecomeLeader (Net.mk (fun _ => false) [])).2.2.trace
      = [NetEvent.listen ":8080"] ∧
    ((New ":8080").BecomeLeader (Net.mk (fun _ => false) [])).2.2.bound ":8080" = true ∧
    ((New ":8080").BecomeLeader (Net.mk (fun _ => false) [])).2.2.bound ":1994" = false ∧
    (New ":8080").follower.leaderURL = "http://localhost:1994" ∧
    (election.New ":8080").leaderURL = "http://localhost:1994" ∧
    ¬ Designates (New ":8080").follower.leaderURL ":8080" ∧
    ¬ Designates (election.New ":8080").leaderURL ":8080" := by
  refine ⟨by decide, by decide, by decide, rfl, rfl, by decide, by decide⟩

/-- Claim C13, as amended. For every address `addr`, the follower of `node.New addr` forwards to
and the election of `election.New addr` probes the constant URL http://localhost:1994,
whatever `addr` is, while `BecomeLeader` binds `addr` itself, through `leader.New addr`. The
two URLs designate the address `main` passes, ":1994", and they designate `addr` only if its
port is 1994. -/
theorem passive_side_points_at_main_addr (addr : String) (net : Net) :
    (New addr).follower.leaderURL = "http://localhost:1994" ∧
    (election.New addr).leaderURL = "http://localhost:1994" ∧
    (New addr).addr = addr ∧ (leader.New (New addr).addr).addr = addr ∧
    ((New addr).BecomeLeader net).2.2.trace = NetEvent.listen addr :: net.trace ∧
    Designates (New mainAddr).follower.leaderURL mainAddr ∧
    Designates (election.New mainAddr).leaderURL mainAddr ∧
    (Designates (New addr).follower.leaderURL addr → portOf addr = "1994") ∧
    (Designates (election.New addr).leaderURL addr → portOf addr = "1994") := by
  refine ⟨rfl, rfl, rfl, rfl, ?_, by decide, by decide, ?_, ?_⟩
  · have hne : (New addr).role ≠ Role.RoleLeader := by simp [New]
    by_cases hb : net.bound addr = true
    · rw [BecomeLeader_of_bound _ _ hne hb]
      rfl
    · have hb1 : net.bound (New addr).addr = false := by simpa [New] using hb
      rw [BecomeLeader_of_free _ _ hne hb1]
      rfl
  · intro h
    exact (localhost_url_port _ _ (designates_port _ _ h)).symm
  · intro h
    exact (localhost_url_port _ _ (designates_port _ _ h)).symm

end node

/-! ## Theorems: a failed send leaves the pending-reply map as it was -/

namespace bridge

theorem SendWithParams_pending_sub (b : Bridge) (rt : Runtime) (env : SendEnv) (ctx : Context)
    (requestType : String) (nodeIDs : List String) (params : Params) (key : String)
    (ch : Chan)
    (h : (b.SendWithParams rt env ctx requestType nodeIDs params).2.1.pending key = some ch) :
    key = (b.nextID env.now).1 ∨ b.pending key = some ch := by
  have hp : (b.nextID env.now).2.pending = b.pending := (nextID_eq b env.now).2.2.1
  revert h
  cases hc : b.conn with
  | none =>
    simp only [Bridge.SendWithParams, Bridge.getConn, hc]
    exact fun h => Or.inr h
  | some conn =>
    simp only [Bridge.SendWithParams, Bridge.getConn, hc]
    cases env.marshal _ with
    | error err => exact fun h => Or.inr h
    | ok data =>
      simp only
      by_cases hk : key = (b.nextID env.now).1
      · exact fun _ => Or.inl hk
      · cases env.write conn data with
        | some err =>
          intro h
          right
          simpa only [Bridge.unregister, Bridge.register, hk, if_false, hp] using h
        | none =>
          simp only
          cases env.select with
          | recv resp =>
            simp only [deliver_register]
            by_cases hE : resp.Error = ""
            · intro h
              right
              simpa only [hE, ne_eq, not_true_eq_false, Bridge.unregister, Bridge.register, hk,
                if_false, hp] using h
            · intro h
              right
              simpa only [hE, ne_eq, not_false_eq_true, if_true, Bridge.unregister,
                Bridge.register, hk, if_false, hp] using h
          | ctxDone =>
            intro h
            right
            simpa only [Bridge.unregister, Bridge.register, hk, if_false, hp] using h

theorem readLoopStep_pending_sub (b : Bridge) (rt : Runtime) (conn : Conn) (f : Frame)
    (key : String) (ch : Chan) (h : (b.readLoopStep rt conn f).1.1.pending key = some ch) :
    b.pending key = some ch := by
  revert h
  cases f with
  | readError =>
    simp only [Bridge.readLoopStep, Bridge.clearConn]
    split <;> exact fun h => h
  | invalid => exact fun h => h
  | response resp =>
    simp only [Bridge.readLoopStep, Bridge.deliver]
    cases b.pending resp.RequestID with
    | none => exact fun h => h
    | some c =>
      simp only [Bridge.unregister]
      by_cases hk : key = resp.RequestID
      · simp [hk]
      · simp [hk]

theorem HandleWebSocket_pending (b : Bridge) (rt : Runtime) (conn : Conn) :
    (b.HandleWebSocket rt conn).1.pending = b.pending := by
  simp only [Bridge.HandleWebSocket, Bridge.setConn]
  cases b.conn <;> rfl

theorem step_counter (s : BridgeRun) (op : BridgeOp) (hlt : s.bridge.counter + 1 < 2 ^ 64) :
    s.bridge.counter ≤ (s.step op).bridge.counter ∧
      (s.step op).bridge.counter ≤ s.bridge.counter + 1 ∧
      ∀ env ctx requestType nodeIDs params,
        op = BridgeOp.send env ctx requestType nodeIDs params → s.bridge.conn ≠ none →
        (s.step op).bridge.counter = s.bridge.counter + 1 := by
  cases op with
  | send env ctx requestType nodeIDs params =>
    have hcount := SendWithParams_counter s.bridge s.rt env ctx requestType nodeIDs params
    rw [Nat.mod_eq_of_lt hlt] at hcount
    refine ⟨?_, ?_, ?_⟩
    · simp only [BridgeRun.step, hcount]
      split <;> omega
    · simp only [BridgeRun.step, hcount]
      split <;> omega
    · intro env1 ctx1 t1 ids1 p1 _ hconn
      simp only [BridgeRun.step, hcount, hconn, if_false]
  | frame conn f =>
    have hcount := readLoopStep_counter s.bridge s.rt conn f
    refine ⟨?_, ?_, ?_⟩
    · simp only [BridgeRun.step, hcount]; exact Nat.le_refl _
    · simp only [BridgeRun.step, hcount]; omega
    · intro env ctx t ids p h
      cases h
  | accept conn =>
    have hcount := HandleWebSocket_counter s.bridge s.rt conn
    refine ⟨?_, ?_, ?_⟩
    · simp only [BridgeRun.step, hcount]; exact Nat.le_refl _
    · simp only [BridgeRun.step, hcount]; omega
    · intro env ctx t ids p h
      cases h

theorem keyed_step (s : BridgeRun) (op : BridgeOp) (h : s.Keyed)
    (hlt : s.bridge.counter + 1 < 2 ^ 64) : (s.step op).Keyed := by
  have hcnt := step_counter s op hlt
  have hold : ∀ key ch, s.bridge.pending key = some ch →
      ∃ now k, 1 ≤ k ∧ k ≤ (s.step op).bridge.counter ∧ key = requestIDOf now k := by
    intro key ch hk
    obtain ⟨now, k, h1, h2, h3⟩ := h key ch hk
    exact ⟨now, k, h1, Nat.le_trans h2 hcnt.1, h3⟩
  cases op with
  | send env ctx requestType nodeIDs params =>
    intro key ch hk
    rcases SendWithParams_pending_sub s.bridge s.rt env ctx requestType nodeIDs params key ch
      hk with hnew | hk1
    · by_cases hconn : s.bridge.conn = none
      · have hsame : (s.bridge.SendWithParams s.rt env ctx requestType nodeIDs params).2.1
            = s.bridge := by
          simp [Bridge.SendWithParams, Bridge.getConn, hconn]
        have hk2 : s.bridge.pending key = some ch := by
          have := hk
          simp only [BridgeRun.step, hsame] at this
          exact this
        exact hold key ch hk2
      · have hc := hcnt.2.2 env ctx requestType nodeIDs params rfl hconn
        refine ⟨env.now, s.bridge.counter + 1, by omega, by omega, ?_⟩
        rw [hnew, (nextID_eq s.bridge env.now).1, Nat.mod_eq_of_lt hlt]
    · exact hold key ch hk1
  | frame conn f =>
    intro key ch hk
    exact hold key ch (readLoopStep_pending_sub s.bridge s.rt conn f key ch hk)
  | accept conn =>
    intro key ch hk
    have hk1 : s.bridge.pending key = some ch := by
      have := hk
      simp only [BridgeRun.step, HandleWebSocket_pending] at this
      exact this
    exact hold key ch hk1

theorem keyed_foldl (ops : List BridgeOp) :
    ∀ s : BridgeRun, s.Keyed → s.bridge.counter + ops.length < 2 ^ 64 →
      (ops.foldl BridgeRun.step s).Keyed ∧
        (ops.foldl BridgeRun.step s).bridge.counter ≤ s.bridge.counter + ops.length := by
  induction ops with
  | nil => intro s h _; exact ⟨h, Nat.le_refl _⟩
  | cons op ops ih =>
    intro s h hlt
    simp only [List.length_cons] at hlt
    have hc := (step_counter s op (by omega)).2.1
    have hs := keyed_step s op h (by omega)
    have := ih _ hs (by omega)
    refine ⟨this.1, ?_⟩
    simp only [List.foldl_cons, List.length_cons]
    omega

theorem next_not_pending (addr : String) (ops : List BridgeOp) (now : Clock)
    (hops : ops.length + 1 < 2 ^ 64) :
    (runBridge addr ops).bridge.pending ((runBridge addr ops).bridge.nextID now).1 = none := by
  have hk0 := keyed_foldl ops
    { bridge := NewBridge addr, rt := Runtime.empty, registered := [] }
    (by intro key ch h; simp [NewBridge] at h) (by simp only [NewBridge]; omega)
  have hk : (runBridge addr ops).Keyed := hk0.1
  have hcnt : (runBridge addr ops).bridge.counter ≤ ops.length := by
    have h2 := hk0.2
    simp only [NewBridge, Nat.zero_add] at h2
    exact h2
  clear hk0
  cases hp : (runBridge addr ops).bridge.pending ((runBridge addr ops).bridge.nextID now).1 with
  | none => rfl
  | some ch =>
    exfalso
    obtain ⟨now1, k, _, hle, heq⟩ := hk _ ch hp
    rw [(nextID_eq _ now).1, Nat.mod_eq_of_lt (by omega)] at heq
    have := requestIDOf_injective _ _ _ _ heq
    omega

/-- Claim C9. A bridge after any run of sends, reader turns and accepted connections (the run
and this call fewer than `2 ^ 64` operations) holds connection `conn`, and the request of this
call has been encoded as `data`. If writing `data` fails with `err`, `SendWithParams` returns
`err`; if the write succeeds and the context is done before a reply is received, it returns
the error of the context. In both cases the request-ID registered by this call is no key of
the pending-reply map afterwards, every other entry is as before, and the map is the map
before the call. -/
theorem SendWithParams_failure_restores_map (addr : String) (ops : List BridgeOp)
    (env : SendEnv) (ctx : Context) (requestType : String) (nodeIDs : List String)
    (params : Params) (conn : Conn) (data : String)
    (hops : ops.length + 1 < 2 ^ 64)
    (hconn : (runBridge addr ops).bridge.conn = some conn)
    (hdata : env.marshal
      { Type_ := requestType, RequestID := ((runBridge addr ops).bridge.nextID env.now).1,
        NodeIDs := nodeIDs, Params := params } = Except.ok data) :
    (∀ err, env.write conn data = some err →
      ((runBridge addr ops).bridge.SendWithParams (runBridge addr ops).rt env ctx requestType
          nodeIDs params).1 = (Response.zero, some err) ∧
      ((runBridge addr ops).bridge.SendWithParams (runBridge addr ops).rt env ctx requestType
          nodeIDs params).2.1.pending ((runBridge addr ops).bridge.nextID env.now).1 = none ∧
      (∀ k, k ≠ ((runBridge addr ops).bridge.nextID env.now).1 →
        ((runBridge addr ops).bridge.SendWithParams (runBridge addr ops).rt env ctx requestType
          nodeIDs params).2.1.pending k = (runBridge addr ops).bridge.pending k) ∧
      ((runBridge addr ops).bridge.SendWithParams (runBridge addr ops).rt env ctx requestType
          nodeIDs params).2.1.pending = (runBridge addr ops).bridge.pending) ∧
    (env.write conn data = none → env.select = Select.ctxDone →
      ((runBridge addr ops).bridge.SendWithParams (runBridge addr ops).rt env ctx requestType
          nodeIDs params).1 = (Response.zero, some ctx.err) ∧
      ((runBridge addr ops).bridge.SendWithParams (runBridge addr ops).rt env ctx requestType
          nodeIDs params).2.1.pending ((runBridge addr ops).bridge.nextID env.now).1 = none ∧
      (∀ k, k ≠ ((runBridge addr ops).bridge.nextID env.now).1 →
        ((runBridge addr ops).bridge.SendWithParams (runBridge addr ops).rt env ctx requestType
          nodeIDs params).2.1.pending k = (runBridge addr ops).bridge.pending k) ∧
      ((runBridge addr ops).bridge.SendWithParams (runBridge addr ops).rt env ctx requestType
          nodeIDs params).2.1.pending = (runBridge addr ops).bridge.pending) := by
  have hfree := next_not_pending addr ops env.now hops
  have h := SendWithParams_failure_removes_entry (runBridge addr ops).bridge
    (runBridge addr ops).rt env ctx requestType nodeIDs params conn data hconn hdata
  constructor
  · intro err hw
    obtain ⟨hres, hno, hother, heq⟩ := h.1 err hw
    exact ⟨hres, hno, hother, heq hfree⟩
  · intro hw hsel
    obtain ⟨hres, hno, hother, heq⟩ := h.2 hw hsel
    exact ⟨hres, hno, hother, heq hfree⟩

/-- After the run `sampleRun` the next send, at 12:00:01, fails to write: the write error comes
back and the map, which held no entry of the two earlier requests, is the map before the
call. -/
theorem SendWithParams_failure_restores_map_witness :
    (sampleRun.length + 1 < 2 ^ 64) ∧
    (runBridge ":1994" sampleRun).bridge.conn = some 1 ∧
    (((runBridge ":1994" sampleRun).bridge.SendWithParams (runBridge ":1994" sampleRun).rt
        ⟨Clock.mk 12 0 1, fun _ => Except.ok "frame", fun _ _ => some "write: broken pipe",
          Select.ctxDone⟩
        (Context.mk 0 "context canceled") "get_node" ["123:456"] []).1
      = (Response.zero, some "write: broken pipe")) ∧
    (((runBridge ":1994" sampleRun).bridge.SendWithParams (runBridge ":1994" sampleRun).rt
        ⟨Clock.mk 12 0 1, fun _ => Except.ok "frame", fun _ _ => some "write: broken pipe",
          Select.ctxDone⟩
        (Context.mk 0 "context canceled") "get_node" ["123:456"] []).2.1.pending
      = (runBridge ":1994" sampleRun).bridge.pending) ∧
    (runBridge ":1994" sampleRun).bridge.pending "req-120000-1" = none ∧
    (runBridge ":1994" sampleRun).bridge.pending "req-120000-2" = none ∧
    (runBridge ":1994" sampleRun).registered = ["req-120000-2", "req-120000-1"] :=
  ⟨by decide, by decide,
   ((SendWithParams_failure_restores_map ":1994" sampleRun
      ⟨Clock.mk 12 0 1, fun _ => Except.ok "frame", fun _ _ => some "write: broken pipe",
        Select.ctxDone⟩
      (Context.mk 0 "context canceled") "get_node" ["123:456"] [] 1 "frame" (by decide)
      (by decide) rfl).1 "write: broken pipe" rfl).1,
   ((SendWithParams_failure_restores_map ":1994" sampleRun
      ⟨Clock.mk 12 0 1, fun _ => Except.ok "frame", fun _ _ => some "write: broken pipe",
        Select.ctxDone⟩
      (Context.mk 0 "context canceled") "get_node" ["123:456"] [] 1 "frame" (by decide)
      (by decide) rfl).1 "write: broken pipe" rfl).2.2.2,
   by decide, by decide, by decide⟩

end bridge

end FigmaBridge
